import Mathlib

/- Verification of the snapshot decryption and persistence pipeline.

   Shallow embedding of:
   - src/lib/decrypt-snapshot-streaming.ts (multi-worker pipeline:
     ensureProcessingMetadata, cacheDecryptedSnapshotMultiWorker,
     decryptAndStreamToIndexedDBMultiWorker, chunkMessages,
     calculateOptimalChunkSize, the inline worker retry loop and the
     WorkerPool dispatcher),
   - src/lib/decrypt-snapshot-streaming-full-worker.ts (decodeMsgpack,
     decryptOsnpSnapshot, decryptJsonSnapshot and the inline full-worker
     decrypt placeholder), and
   - src/app/page.tsx (bulk prefetch scheduling under a size budget).

   Modelling conventions: byte buffers are `List Nat` (entries < 256 in every
   real input); JS `number` quantities used for sizes/durations are modelled
   as exact rationals (the source uses IEEE doubles); Web Crypto primitives
   (RSA-OAEP unwrap, AES-GCM, gzip) are opaque oracle parameters, since the
   claims under verification concern control flow around them, not their
   mathematical content; asynchronous side effects of the orchestrating
   functions are recorded as an ordered effect trace. -/

namespace ChatSnap

/-- Status union of `SnapshotMetadata.status` (indexeddb-manager.ts):
    'processing' | 'completed' | 'error'. -/
inductive SnapStatus where
  | processing
  | completed
  | error
deriving DecidableEq, Repr

/-- `SnapshotMetadata` record (indexeddb-manager.ts). Optional TS fields are
    `Option`s; `messageCount` and `processedMessages` are required numbers. -/
structure SnapshotMetadata where
  snapshotId : String
  projectId : Option Nat := none
  queueId : Option String := none
  messageCount : Nat
  totalMessages : Option Nat := none
  processedMessages : Nat
  firstMessageDate : Option String := none
  lastMessageDate : Option String := none
  createdAt : String
  status : SnapStatus
  error : Option String := none
deriving DecidableEq, Repr

/-- `Message` record (indexeddb-manager.ts), restricted to its required
    fields; the optional payload fields are never consulted by the pipeline
    code under verification and are omitted from the embedding. -/
structure Message where
  id : String
  user_id : String
  message : String
  type : String
  message_type : String
  created_at : String
deriving DecidableEq, Repr

/-- Stage union of `StreamingProgress.stage`. -/
inductive Stage where
  | downloading
  | decrypting
  | processing
  | saving
  | completed
  | error
deriving DecidableEq, Repr

/-- `StreamingProgress` callback payload (decrypt-snapshot-streaming.ts,
    multi-worker module). Durations and throughput are exact rationals in the
    model; display strings that the source assembles with locale-dependent
    formatting are abbreviated to fixed labels (no claim depends on them). -/
structure StreamingProgress where
  stage : Stage
  progress : Nat
  message : String
  processedMessages : Option Nat := none
  totalMessages : Option Nat := none
  error : Option String := none
  decryptDurationMs : Option ℚ := none
  insertDurationMs : Option ℚ := none
  totalDurationMs : Option ℚ := none
  insertedMessages : Option Nat := none
  throughputMessagesPerSec : Option ℚ := none
deriving DecidableEq, Repr

/-- Decrypted snapshot payload consumed by the caching pipeline
    (`decryptedData` destructured as projectId, queueId, messageCount,
    messages). `messages = none` models a missing or non-array `messages`
    field, which the source rejects with
    'Invalid snapshot format: missing messages array'. -/
structure DecryptedData where
  projectId : Option Nat := none
  queueId : Option String := none
  messageCount : Option Nat := none
  messages : Option (List Message)
deriving DecidableEq, Repr

/-- Observable actions of the multi-worker pipeline, recorded in program
    order: metadata writes (`dbManager.saveMetadata`), the snapshot
    decryption step (`decryptSnapshot`), worker-pool creation
    (`new WorkerPool`), chunk submissions (`workerPool.processChunk`), and
    progress callbacks (`onProgress`). -/
inductive Effect where
  | putMetadata (m : SnapshotMetadata)
  | decrypt
  | poolCreate (workerCount totalChunks : Nat)
  | submitChunk (chunkIndex : Nat) (chunk : List Message)
  | progress (p : StreamingProgress)
deriving DecidableEq, Repr

/-- Metadata writes of a trace, in order. -/
def metadataWrites (t : List Effect) : List SnapshotMetadata :=
  t.filterMap fun e =>
    match e with
    | .putMetadata m => some m
    | _ => none

/-- Chunks submitted to the worker pool, in submission order. -/
def submittedChunks (t : List Effect) : List (List Message) :=
  t.filterMap fun e =>
    match e with
    | .submitChunk _ c => some c
    | _ => none

/-- Worker-pool creations recorded in a trace. -/
def poolCreations (t : List Effect) : List (Nat × Nat) :=
  t.filterMap fun e =>
    match e with
    | .poolCreate w c => some (w, c)
    | _ => none

/-- Progress events of a trace, in order. -/
def progressEvents (t : List Effect) : List StreamingProgress :=
  t.filterMap fun e =>
    match e with
    | .progress p => some p
    | _ => none

/-- Number of decryption steps recorded in a trace. -/
def decryptSteps (t : List Effect) : Nat :=
  t.countP fun e =>
    match e with
    | .decrypt => true
    | _ => false

/-- JS `a || b` on an optional numeric count: both `undefined` and `0` are
    falsy and fall through to `b` (used for `messageCount || totalMessages`). -/
def jsOrNat : Option Nat → Nat → Nat
  | some n, b => if n = 0 then b else n
  | none, b => b

/-- CONFIG chunk sizes of the multi-worker module. -/
def CHUNK_SIZE_SMALL : Nat := 1000

/-- CONFIG.CHUNK_SIZE_MEDIUM. -/
def CHUNK_SIZE_MEDIUM : Nat := 2000

/-- CONFIG.CHUNK_SIZE_LARGE. -/
def CHUNK_SIZE_LARGE : Nat := 3000

/-- CONFIG.CHUNK_SIZE_XLARGE. -/
def CHUNK_SIZE_XLARGE : Nat := 5000

/-- `calculateOptimalChunkSize`: chunk size from message count and worker
    count. `Math.ceil(total / target)` on naturals is
    `(total + target - 1) / target`; every caller passes a positive worker
    count (`CONFIG.WORKER_COUNT` defaults to 4 and `getOptimalWorkerCount`
    returns at least 2). -/
def calculateOptimalChunkSize (totalMessages workerCount : Nat) : Nat :=
  let minChunksPerWorker := 2
  let targetTotalChunks := workerCount * minChunksPerWorker
  if totalMessages < 4000 then CHUNK_SIZE_SMALL
  else if totalMessages < 16000 then CHUNK_SIZE_MEDIUM
  else if totalMessages < 64000 then CHUNK_SIZE_LARGE
  else max CHUNK_SIZE_XLARGE ((totalMessages + targetTotalChunks - 1) / targetTotalChunks)

/-- The computed chunk size is always positive. -/
theorem calculateOptimalChunkSize_pos (totalMessages workerCount : Nat) :
    0 < calculateOptimalChunkSize totalMessages workerCount := by
  unfold calculateOptimalChunkSize
  split
  · decide
  · split
    · decide
    · split
      · decide
      · exact lt_of_lt_of_le (by decide : (0 : Nat) < CHUNK_SIZE_XLARGE) (le_max_left _ _)

/-- `chunkMessages`: split a list into consecutive slices of `chunkSize`
    elements (`messages.slice(i, i + chunkSize)` for `i = 0, chunkSize, ...`).
    The source loop does not terminate for `chunkSize = 0`; it is never
    invoked that way (chunk sizes are at least 1000), and the model returns
    `[]` in that unreachable case. -/
def chunkMessages {α : Type} : List α → Nat → List (List α)
  | [], _ => []
  | _ :: _, 0 => []
  | a :: as, c + 1 =>
    (a :: as).take (c + 1) :: chunkMessages ((a :: as).drop (c + 1)) (c + 1)
termination_by l _ => l.length
decreasing_by
  simp [List.length_drop]
  omega

/-- Concatenating the chunks recovers the input list (auxiliary strong
    induction on the list length). -/
theorem chunkMessages_join_aux {α : Type} :
    ∀ (n : Nat) (l : List α) (c : Nat), l.length ≤ n → 0 < c →
      (chunkMessages l c).flatten = l := by
  intro n
  induction n with
  | zero =>
    intro l c hl _
    have hnil : l = [] := List.length_eq_zero.mp (Nat.le_zero.mp hl)
    subst hnil
    simp [chunkMessages]
  | succ n ih =>
    intro l c hl hc
    match l, c with
    | [], _ => simp [chunkMessages]
    | _ :: _, 0 => exact absurd hc (by decide)
    | a :: as, c + 1 =>
      rw [chunkMessages]
      have hlen : ((a :: as).drop (c + 1)).length ≤ n := by
        simp only [List.length_drop, List.length_cons] at hl ⊢
        omega
      rw [List.flatten_cons, ih _ _ hlen hc, List.take_append_drop]

/-- Each produced chunk is exactly the slice of the input starting at index
    `i * chunkSize` (auxiliary strong induction on the list length). -/
theorem chunkMessages_get_aux {α : Type} :
    ∀ (n : Nat) (l : List α) (c : Nat), l.length ≤ n → 0 < c →
      ∀ (i : Nat) (ch : List α), (chunkMessages l c).get? i = some ch →
        ch = (l.drop (i * c)).take c := by
  intro n
  induction n with
  | zero =>
    intro l c hl _ i ch h
    have hnil : l = [] := List.length_eq_zero.mp (Nat.le_zero.mp hl)
    subst hnil
    simp [chunkMessages] at h
  | succ n ih =>
    intro l c hl hc i ch h
    match l, c with
    | [], _ => simp [chunkMessages] at h
    | _ :: _, 0 => exact absurd hc (by decide)
    | a :: as, c + 1 =>
      rw [chunkMessages] at h
      match i with
      | 0 =>
        simp only [List.get?] at h
        cases h
        simp
      | i + 1 =>
        simp only [List.get?] at h
        have hlen : ((a :: as).drop (c + 1)).length ≤ n := by
          simp only [List.length_drop, List.length_cons] at hl ⊢
          omega
        have := ih _ _ hlen hc i ch h
        rw [this, List.drop_drop]
        congr 2
        ring

/-- C6: for every message array and every positive chunk size, the chunk
    partitioning function `chunkMessages` produces chunks whose concatenation
    equals the input array (hence whose lengths sum to exactly its length),
    and whose index ranges are pairwise disjoint, contiguous, and in order:
    the i-th chunk is exactly the slice of the input that starts at index
    `i * chunkSize`. -/
theorem c6_chunk_partition {α : Type} (l : List α) (c : Nat) (hc : 0 < c) :
    (chunkMessages l c).flatten = l ∧
    ((chunkMessages l c).map List.length).sum = l.length ∧
    ∀ (i : Nat) (ch : List α), (chunkMessages l c).get? i = some ch →
      ch = (l.drop (i * c)).take c := by
  refine ⟨chunkMessages_join_aux l.length l c le_rfl hc, ?_, ?_⟩
  · rw [← List.length_flatten, chunkMessages_join_aux l.length l c le_rfl hc]
  · exact chunkMessages_get_aux l.length l c le_rfl hc

/-- Witness for c6_chunk_partition at a concrete list and chunk size. -/
theorem c6_chunk_partition_witness :
    (chunkMessages [1, 2, 3, 4, 5] 2).flatten = [1, 2, 3, 4, 5] :=
  (c6_chunk_partition [1, 2, 3, 4, 5] 2 (by decide)).1

/-- Result of `ensureProcessingMetadata`: the metadata row to work with and
    whether the snapshot must be skipped as already completed. -/
structure MetadataInitResult where
  metadata : SnapshotMetadata
  skip : Bool
deriving DecidableEq, Repr

/-- `ensureProcessingMetadata`: returns the stored metadata with
    `skip = true` when its status is already 'completed'; otherwise produces
    a 'processing' metadata row (reusing the stored fields and clearing the
    error when a non-completed row exists, or creating a fresh row), which the
    caller immediately persists. -/
def ensureProcessingMetadata (snapshotId : String) (existing : Option SnapshotMetadata)
    (now : String) : MetadataInitResult :=
  match existing with
  | some m =>
    if m.status = .completed then { metadata := m, skip := true }
    else { metadata := { m with status := .processing, error := none }, skip := false }
  | none =>
    { metadata := { snapshotId := snapshotId, messageCount := 0, processedMessages := 0,
                    createdAt := now, status := .processing }, skip := false }

/-- Completed progress event emitted when a snapshot is skipped because its
    stored metadata is already completed. -/
def skipCompletedEvent (m : SnapshotMetadata) : StreamingProgress :=
  { stage := .completed, progress := 100,
    message := "Snapshot already loaded in IndexedDB",
    processedMessages := some m.processedMessages,
    totalMessages := m.totalMessages }

/-- Error progress event of the catch blocks. -/
def errorEvent (msg : String) : StreamingProgress :=
  { stage := .error, progress := 0, message := "Failed to load snapshot",
    error := some msg }

/-- Initial downloading progress event of the pipeline entry point. -/
def downloadingEvent : StreamingProgress :=
  { stage := .downloading, progress := 0, message := "Downloading snapshot file..." }

/-- Processing progress event emitted after decryption. -/
def processingEvent : StreamingProgress :=
  { stage := .processing, progress := 60, message := "Processing snapshot data..." }

/-- Completed progress event of the empty-snapshot path (zero messages). -/
def emptyCompletedEvent (decryptDurationMs : Option ℚ) : StreamingProgress :=
  { stage := .completed, progress := 100,
    message := "Snapshot contains no messages to cache.",
    processedMessages := some 0, totalMessages := some 0,
    decryptDurationMs := decryptDurationMs,
    insertDurationMs := some 0,
    totalDurationMs := some (decryptDurationMs.getD 0),
    insertedMessages := some 0,
    throughputMessagesPerSec := some 0 }

/-- Completed progress event of the everything-already-cached path
    (`messagesToInsert.length === 0`). -/
def resumeSkipCompletedEvent (totalMessages : Nat)
    (decryptDurationMs : Option ℚ) : StreamingProgress :=
  { stage := .completed, progress := 100,
    message := "All messages already cached - skipped reprocessing.",
    processedMessages := some totalMessages, totalMessages := some totalMessages,
    decryptDurationMs := decryptDurationMs,
    insertDurationMs := some 0,
    totalDurationMs := some (decryptDurationMs.getD 0),
    insertedMessages := some 0,
    throughputMessagesPerSec := some 0 }

/-- Saving progress event emitted before the worker pool is created;
    `Math.floor((resumeFrom / totalMessages) * 30)` on naturals is
    `resumeFrom * 30 / totalMessages`. -/
def savingEvent (resumeFrom totalMessages : Nat) : StreamingProgress :=
  { stage := .saving,
    progress := if 0 < resumeFrom ∧ 0 < totalMessages
      then 65 + resumeFrom * 30 / totalMessages else 65,
    message := if 0 < resumeFrom then "Resuming from cached messages..."
      else "Initializing workers for parallel processing...",
    processedMessages := some resumeFrom,
    totalMessages := some totalMessages }

/-- Completed progress event of the successful multi-worker insert path. -/
def finalCompletedEvent (resumeFrom totalMessages insertedMessages : Nat)
    (decryptDurationMs : Option ℚ) (insertDurationMs : ℚ) : StreamingProgress :=
  let totalDurationMs := decryptDurationMs.getD 0 + insertDurationMs
  { stage := .completed, progress := 100,
    message := if 0 < resumeFrom then "Resume complete!" else "Multi-worker complete!",
    processedMessages := some totalMessages, totalMessages := some totalMessages,
    decryptDurationMs := decryptDurationMs,
    insertDurationMs := some insertDurationMs,
    totalDurationMs := some totalDurationMs,
    insertedMessages := some insertedMessages,
    throughputMessagesPerSec := some (if 0 < totalDurationMs
      then insertedMessages / (totalDurationMs / 1000) else (insertedMessages : ℚ)) }

/-- Catch-block behaviour shared by both pipeline entry points: re-read the
    stored metadata, mark it with status 'error' when a row exists, and report
    an error event. -/
def errorTrace (storedNow : Option SnapshotMetadata) (msg : String) : List Effect :=
  (match storedNow with
   | some m => [Effect.putMetadata { m with status := .error, error := some msg }]
   | none => []) ++ [Effect.progress (errorEvent msg)]

/-- Inputs of `cacheDecryptedSnapshotMultiWorker`: the decrypted payload, the
    metadata row stored in IndexedDB at call time (`stored`), the caller
    supplied `options.metadata` (`metadataOpt`), the configured
    `CONFIG.WORKER_COUNT`, the current timestamp, and the measured durations
    (the source reads them from `performance.now()`). -/
structure CacheParams where
  snapshotId : String
  decryptedData : DecryptedData
  stored : Option SnapshotMetadata
  metadataOpt : Option SnapshotMetadata
  workerCount : Nat
  now : String
  decryptDurationMs : Option ℚ
  insertDurationMs : ℚ
deriving DecidableEq, Repr

/-- `cacheDecryptedSnapshotMultiWorker`, modelled as the ordered list of its
    observable effects together with the error message it rethrows (if any).
    Worker-side progress callbacks arriving during the insert phase are
    asynchronous and are not part of the orchestrator trace; the decrypted
    data is handed to the pool as chunk submissions. -/
def cacheDecryptedSnapshotMultiWorker (p : CacheParams) : List Effect × Option String :=
  let init :=
    match p.metadataOpt with
    | some m => ({ metadata := m, skip := false } : MetadataInitResult)
    | none => ensureProcessingMetadata p.snapshotId p.stored p.now
  let initTrace : List Effect :=
    match p.metadataOpt with
    | some _ => []
    | none => if init.skip then [] else [Effect.putMetadata init.metadata]
  if init.skip then
    (initTrace ++ [Effect.progress (skipCompletedEvent init.metadata)], none)
  else
    let metadata := init.metadata
    match p.decryptedData.messages with
    | none =>
      let storedNow :=
        match p.metadataOpt with
        | some _ => p.stored
        | none => some init.metadata
      let msg := "Invalid snapshot format: missing messages array"
      (initTrace ++ errorTrace storedNow msg, some msg)
    | some messages =>
      let totalMessages := messages.length
      if totalMessages = 0 then
        let mEmpty := { metadata with
                          projectId := p.decryptedData.projectId,
                          queueId := p.decryptedData.queueId,
                          messageCount := 0,
                          totalMessages := some 0,
                          status := SnapStatus.completed,
                          processedMessages := 0 }
        (initTrace ++ [Effect.putMetadata mEmpty,
                       Effect.progress (emptyCompletedEvent p.decryptDurationMs)], none)
      else
        let resumeFrom := min metadata.processedMessages totalMessages
        let messagesToInsert := if 0 < resumeFrom then messages.drop resumeFrom else messages
        let m1 := { metadata with
                      projectId := p.decryptedData.projectId,
                      queueId := p.decryptedData.queueId,
                      messageCount := jsOrNat p.decryptedData.messageCount totalMessages,
                      totalMessages := some totalMessages,
                      firstMessageDate := messages.head?.map (fun m => m.created_at),
                      lastMessageDate := messages.getLast?.map (fun m => m.created_at) }
        let t1 := initTrace ++ [Effect.putMetadata m1]
        if messagesToInsert.length = 0 then
          let m2 := { m1 with status := SnapStatus.completed,
                              processedMessages := totalMessages }
          (t1 ++ [Effect.putMetadata m2,
                  Effect.progress (resumeSkipCompletedEvent totalMessages
                    p.decryptDurationMs)], none)
        else
          let chunkSize := calculateOptimalChunkSize messagesToInsert.length p.workerCount
          let chunks := chunkMessages messagesToInsert chunkSize
          let m2 := { m1 with status := SnapStatus.completed,
                              processedMessages := totalMessages }
          (t1
            ++ [Effect.progress (savingEvent resumeFrom totalMessages),
                Effect.poolCreate p.workerCount chunks.length]
            ++ chunks.enum.map (fun ic => Effect.submitChunk ic.1 ic.2)
            ++ [Effect.putMetadata m2,
                Effect.progress (finalCompletedEvent resumeFrom totalMessages
                  messagesToInsert.length p.decryptDurationMs p.insertDurationMs)], none)

/-- Metadata row stored in IndexedDB after a trace has run, starting from
    `stored0` (`getMetadata` in the catch blocks reads the last write). -/
def lastStored (stored0 : Option SnapshotMetadata) (t : List Effect) :
    Option SnapshotMetadata :=
  (metadataWrites t).getLast?.orElse (fun _ => stored0)

/-- Inputs of `decryptAndStreamToIndexedDBMultiWorker`: the stored metadata
    row, the outcome of `decryptSnapshot` (an error message when it throws),
    the configured worker count, and the measured durations. -/
structure StreamParams where
  snapshotId : String
  stored : Option SnapshotMetadata
  decryptOutcome : Except String DecryptedData
  workerCount : Nat
  now : String
  decryptDurationMs : ℚ
  insertDurationMs : ℚ
deriving Repr

/-- `decryptAndStreamToIndexedDBMultiWorker`, modelled as the ordered list of
    its observable effects: ensure a 'processing' metadata row (or skip a
    completed snapshot), decrypt, then delegate to
    `cacheDecryptedSnapshotMultiWorker` with the ensured metadata and the
    measured decrypt duration, re-running the catch block when the delegate
    rethrows. Progress callbacks driven by `decryptSnapshot` status strings
    are folded into the single decrypt step. -/
def decryptAndStreamToIndexedDBMultiWorker (q : StreamParams) : List Effect :=
  let init := ensureProcessingMetadata q.snapshotId q.stored q.now
  if init.skip then
    [Effect.progress (skipCompletedEvent init.metadata)]
  else
    let t0 : List Effect := [Effect.putMetadata init.metadata,
                             Effect.progress downloadingEvent]
    match q.decryptOutcome with
    | .error msg => t0 ++ [Effect.decrypt] ++ errorTrace (some init.metadata) msg
    | .ok d =>
      let t1 := t0 ++ [Effect.decrypt, Effect.progress processingEvent]
      let cacheRun := cacheDecryptedSnapshotMultiWorker
        { snapshotId := q.snapshotId, decryptedData := d,
          stored := some init.metadata, metadataOpt := some init.metadata,
          workerCount := q.workerCount, now := q.now,
          decryptDurationMs := some q.decryptDurationMs,
          insertDurationMs := q.insertDurationMs }
      match cacheRun.2 with
      | none => t1 ++ cacheRun.1
      | some msg =>
        t1 ++ cacheRun.1 ++ errorTrace (lastStored (some init.metadata) cacheRun.1) msg

/-- Extracting the submitted chunks from the chunk-submission effects
    recovers the chunk list. -/
theorem submittedChunks_enum (chunks : List (List Message)) :
    submittedChunks (chunks.enum.map fun ic => Effect.submitChunk ic.1 ic.2) = chunks := by
  unfold submittedChunks
  rw [List.filterMap_map]
  have h : ((fun e =>
      match e with
      | Effect.submitChunk _ c => some c
      | _ => none) ∘ fun ic : Nat × List Message => Effect.submitChunk ic.1 ic.2)
      = fun ic : Nat × List Message => some ic.2 := rfl
  rw [h]
  rw [show (fun ic : Nat × List Message => some ic.2)
        = some ∘ (Prod.snd : Nat × List Message → List Message) from rfl]
  rw [List.filterMap_eq_map, List.enum_map_snd]

/-- Chunk-submission effects contain no metadata writes. -/
theorem metadataWrites_enum (chunks : List (List Message)) :
    metadataWrites (chunks.enum.map fun ic => Effect.submitChunk ic.1 ic.2) = [] := by
  unfold metadataWrites
  rw [List.filterMap_map]
  exact List.filterMap_eq_nil_iff.mpr (by intro a _; rfl)

/-- Concrete message used by the witnesses. -/
def demoMessage (i : Nat) : Message :=
  { id := toString i, user_id := "u", message := "hello", type := "text",
    message_type := "text", created_at := "2024-01-01" }

/-- Concrete metadata row used by the witnesses. -/
def demoMeta (k : Nat) (st : SnapStatus) : SnapshotMetadata :=
  { snapshotId := "snap", messageCount := 0, processedMessages := k,
    createdAt := "2024-01-01", status := st }

/-- C2: re-invoking the pipeline on a snapshot whose stored metadata already
    has status 'completed' performs no decryption, writes no message records
    (no chunk is ever submitted) and no metadata, and reports exactly one
    completed progress event whose processedMessages and totalMessages come
    from the existing metadata. -/
theorem c2_completed_skip (q : StreamParams) (m : SnapshotMetadata)
    (hst : q.stored = some m) (hc : m.status = .completed) :
    decryptAndStreamToIndexedDBMultiWorker q
      = [Effect.progress (skipCompletedEvent m)] ∧
    metadataWrites (decryptAndStreamToIndexedDBMultiWorker q) = [] ∧
    submittedChunks (decryptAndStreamToIndexedDBMultiWorker q) = [] ∧
    decryptSteps (decryptAndStreamToIndexedDBMultiWorker q) = 0 ∧
    progressEvents (decryptAndStreamToIndexedDBMultiWorker q)
      = [skipCompletedEvent m] ∧
    (skipCompletedEvent m).stage = .completed ∧
    (skipCompletedEvent m).processedMessages = some m.processedMessages ∧
    (skipCompletedEvent m).totalMessages = m.totalMessages := by
  have h1 : decryptAndStreamToIndexedDBMultiWorker q
      = [Effect.progress (skipCompletedEvent m)] := by
    unfold decryptAndStreamToIndexedDBMultiWorker
    rw [hst]
    simp [ensureProcessingMetadata, hc]
  refine ⟨h1, ?_, ?_, ?_, ?_, rfl, rfl, rfl⟩ <;> rw [h1] <;> rfl


/-- Witness for c2_completed_skip at a concrete completed metadata row. -/
theorem c2_completed_skip_witness :
    decryptAndStreamToIndexedDBMultiWorker
        { snapshotId := "snap", stored := some (demoMeta 5 .completed),
          decryptOutcome := .error "unused", workerCount := 4, now := "t",
          decryptDurationMs := 0, insertDurationMs := 0 }
      = [Effect.progress (skipCompletedEvent (demoMeta 5 .completed))] :=
  (c2_completed_skip _ _ rfl rfl).1

/-- C1: when the stored metadata of a snapshot is resumable (not completed)
    with processedMessages = k and the decrypted message array has length N
    with k < N, the persistence path submits exactly the suffix of the last
    N - k messages (indices k..N-1, in order) to the worker pool, and the
    final metadata write of the run sets status completed with
    processedMessages = N. (The source computes resumeFrom = min(k, N), which
    equals k here, and slices `messages` from that index.) -/
theorem c1_resume_suffix (p : CacheParams) (m : SnapshotMetadata) (ms : List Message)
    (hmo : p.metadataOpt = none) (hst : p.stored = some m)
    (hnc : m.status ≠ .completed)
    (hmsg : p.decryptedData.messages = some ms)
    (hk : m.processedMessages < ms.length) :
    (submittedChunks (cacheDecryptedSnapshotMultiWorker p).1).flatten
      = ms.drop m.processedMessages ∧
    ((submittedChunks (cacheDecryptedSnapshotMultiWorker p).1).flatten).length
      = ms.length - m.processedMessages ∧
    ((metadataWrites (cacheDecryptedSnapshotMultiWorker p).1).getLast?).map
        (fun m2 => (m2.status, m2.processedMessages))
      = some (SnapStatus.completed, ms.length) ∧
    (cacheDecryptedSnapshotMultiWorker p).2 = none := by
  have hNpos : ms.length ≠ 0 := by omega
  have hmin : min m.processedMessages ms.length = m.processedMessages :=
    Nat.min_eq_left hk.le
  have hmti : (if 0 < min m.processedMessages ms.length
        then ms.drop (min m.processedMessages ms.length) else ms)
      = ms.drop m.processedMessages := by
    rw [hmin]
    rcases Nat.eq_zero_or_pos m.processedMessages with h0 | hpos
    · simp [h0]
    · rw [if_pos hpos]
  have hdlen : (ms.drop m.processedMessages).length = ms.length - m.processedMessages :=
    List.length_drop _ _
  have hdne : (ms.drop m.processedMessages).length ≠ 0 := by omega
  have hjoin : (chunkMessages (ms.drop m.processedMessages)
        (calculateOptimalChunkSize (ms.drop m.processedMessages).length
          p.workerCount)).flatten = ms.drop m.processedMessages :=
    chunkMessages_join_aux (ms.drop m.processedMessages).length _ _ le_rfl
      (calculateOptimalChunkSize_pos _ _)
  refine ⟨?_, ?_, ?_, ?_⟩ <;>
    (unfold cacheDecryptedSnapshotMultiWorker
     rw [hmo, hst, hmsg]
     simp only [ensureProcessingMetadata, if_neg hnc, if_neg hNpos, hmti, if_neg hdne,
       Bool.false_eq_true, if_false])
  · simp only [submittedChunks, List.filterMap_append, List.filterMap_cons,
      List.filterMap_nil]
    rw [show List.filterMap (fun e =>
          match e with
          | Effect.submitChunk _ c => some c
          | _ => none) = submittedChunks from rfl, submittedChunks_enum]
    simpa using hjoin
  · simp only [submittedChunks, List.filterMap_append, List.filterMap_cons,
      List.filterMap_nil]
    rw [show List.filterMap (fun e =>
          match e with
          | Effect.submitChunk _ c => some c
          | _ => none) = submittedChunks from rfl, submittedChunks_enum]
    simpa [hdlen] using congrArg List.length hjoin
  · simp only [metadataWrites, List.filterMap_append, List.filterMap_cons,
      List.filterMap_nil]
    rw [show List.filterMap (fun e =>
          match e with
          | Effect.putMetadata mm => some mm
          | _ => none) = metadataWrites from rfl, metadataWrites_enum]
    simp

/-- Witness for c1_resume_suffix: two messages with one already processed. -/
theorem c1_resume_suffix_witness :
    (submittedChunks (cacheDecryptedSnapshotMultiWorker
        { snapshotId := "snap",
          decryptedData := { messages := some [demoMessage 0, demoMessage 1] },
          stored := some (demoMeta 1 .processing), metadataOpt := none,
          workerCount := 4, now := "t", decryptDurationMs := none,
          insertDurationMs := 0 }).1).flatten
      = [demoMessage 0, demoMessage 1].drop 1 :=
  (c1_resume_suffix _ (demoMeta 1 .processing) [demoMessage 0, demoMessage 1]
    rfl rfl (by decide) rfl (by decide)).1

/-- C10: invoking the multi-worker caching entry point on decrypted data with
    an empty messages array (no completed metadata stored, no caller-supplied
    metadata) writes no message records (zero chunk submissions), creates no
    worker pool, rethrows nothing, ends with a metadata write of status
    'completed' with processedMessages = 0 and totalMessages = 0, and reports
    a final completed progress event with insertedMessages = 0. -/
theorem c10_empty_messages (p : CacheParams) (hmo : p.metadataOpt = none)
    (hnc : ∀ m, p.stored = some m → m.status ≠ .completed)
    (hmsg : p.decryptedData.messages = some []) :
    submittedChunks (cacheDecryptedSnapshotMultiWorker p).1 = [] ∧
    poolCreations (cacheDecryptedSnapshotMultiWorker p).1 = [] ∧
    (cacheDecryptedSnapshotMultiWorker p).2 = none ∧
    ((metadataWrites (cacheDecryptedSnapshotMultiWorker p).1).getLast?).map
        (fun m2 => (m2.status, m2.processedMessages, m2.totalMessages))
      = some (SnapStatus.completed, 0, some 0) ∧
    (progressEvents (cacheDecryptedSnapshotMultiWorker p).1).getLast?
      = some (emptyCompletedEvent p.decryptDurationMs) ∧
    (emptyCompletedEvent p.decryptDurationMs).stage = .completed ∧
    (emptyCompletedEvent p.decryptDurationMs).insertedMessages = some 0 := by
  unfold cacheDecryptedSnapshotMultiWorker
  rw [hmo, hmsg]
  match hs : p.stored with
  | none =>
    refine ⟨?_, ?_, ?_, ?_, ?_, rfl, rfl⟩ <;>
      simp [ensureProcessingMetadata, submittedChunks, poolCreations,
        metadataWrites, progressEvents]
  | some m =>
    have hne := hnc m hs
    refine ⟨?_, ?_, ?_, ?_, ?_, rfl, rfl⟩ <;>
      simp [ensureProcessingMetadata, if_neg hne, submittedChunks, poolCreations,
        metadataWrites, progressEvents]

/-- Witness for c10_empty_messages at a concrete empty snapshot. -/
theorem c10_empty_messages_witness :
    submittedChunks (cacheDecryptedSnapshotMultiWorker
      { snapshotId := "snap", decryptedData := { messages := some [] },
        stored := none, metadataOpt := none, workerCount := 4, now := "t",
        decryptDurationMs := none, insertDurationMs := 0 }).1 = [] :=
  (c10_empty_messages _ rfl (by intro m h; simp at h) rfl).1

/-- Statuses of the metadata writes of a trace, in write order. -/
def writtenStatuses (t : List Effect) : List SnapStatus :=
  (metadataWrites t).map fun m => m.status

/-- Status discipline within one pipeline run: 'processing' writes may be
    followed by anything, a 'completed' write is the final write of the run,
    and writes after an 'error' write can only repeat 'error'. -/
def terminalStatusesOK : List SnapStatus → Bool
  | [] => true
  | .processing :: rest => terminalStatusesOK rest
  | .completed :: rest => rest.isEmpty
  | .error :: rest => rest.all fun s => decide (s = .error)

/-- Splitting the written statuses of a concatenated trace. -/
theorem writtenStatuses_append (a b : List Effect) :
    writtenStatuses (a ++ b) = writtenStatuses a ++ writtenStatuses b := by
  unfold writtenStatuses metadataWrites
  rw [List.filterMap_append, List.map_append]

/-- Computation rules of `metadataWrites` over each effect constructor. -/
theorem metadataWrites_nil : metadataWrites [] = [] := rfl

/-- A metadata write contributes its row. -/
theorem metadataWrites_cons_put (m : SnapshotMetadata) (t : List Effect) :
    metadataWrites (Effect.putMetadata m :: t) = m :: metadataWrites t := rfl

/-- Progress events contribute no metadata write. -/
theorem metadataWrites_cons_progress (q : StreamingProgress) (t : List Effect) :
    metadataWrites (Effect.progress q :: t) = metadataWrites t := rfl

/-- Pool creation contributes no metadata write. -/
theorem metadataWrites_cons_pool (w c : Nat) (t : List Effect) :
    metadataWrites (Effect.poolCreate w c :: t) = metadataWrites t := rfl

/-- Chunk submissions contribute no metadata write. -/
theorem metadataWrites_cons_submit (i : Nat) (ch : List Message) (t : List Effect) :
    metadataWrites (Effect.submitChunk i ch :: t) = metadataWrites t := rfl

/-- The decryption step contributes no metadata write. -/
theorem metadataWrites_cons_decrypt (t : List Effect) :
    metadataWrites (Effect.decrypt :: t) = metadataWrites t := rfl

/-- Splitting the metadata writes of a concatenated trace. -/
theorem metadataWrites_append (a b : List Effect) :
    metadataWrites (a ++ b) = metadataWrites a ++ metadataWrites b := by
  unfold metadataWrites
  rw [List.filterMap_append]

/-- When `ensureProcessingMetadata` does not skip, the row it hands back (and
    that the caller writes) has status 'processing'. -/
theorem ensure_not_skip_processing (sid : String) (existing : Option SnapshotMetadata)
    (now : String) (h : (ensureProcessingMetadata sid existing now).skip = false) :
    (ensureProcessingMetadata sid existing now).metadata.status = .processing := by
  cases existing with
  | none => rfl
  | some m =>
    by_cases hc : m.status = .completed
    · have heq : ensureProcessingMetadata sid (some m) now
          = { metadata := m, skip := true } := by
        simp [ensureProcessingMetadata, hc]
      rw [heq] at h
      simp at h
    · have heq : ensureProcessingMetadata sid (some m) now
          = { metadata := { m with status := .processing, error := none },
              skip := false } := by
        simp [ensureProcessingMetadata, hc]
      rw [heq]

/-- The catch block writes exactly one 'error' status when a row is stored. -/
theorem writtenStatuses_errorTrace_some (m : SnapshotMetadata) (msg : String) :
    writtenStatuses (errorTrace (some m) msg) = [.error] := rfl

/-- The stored row after a trace, starting from a stored row, exists. -/
theorem lastStored_some (m : SnapshotMetadata) (t : List Effect) :
    ∃ x, lastStored (some m) t = some x := by
  unfold lastStored
  cases h : (metadataWrites t).getLast? with
  | none => exact ⟨m, by simp [h, Option.orElse]⟩
  | some x => exact ⟨x, by simp [h, Option.orElse]⟩

/-- Run equation of `cacheDecryptedSnapshotMultiWorker` when the caller
    supplies `options.metadata` (as the streaming entry point does): the
    metadata-init step writes nothing and never skips, and the run proceeds
    directly on the supplied row. -/
theorem cache_run_eq_some_noMsgs (p : CacheParams) (m : SnapshotMetadata)
    (hmo : p.metadataOpt = some m) (hmsg : p.decryptedData.messages = none) :
    cacheDecryptedSnapshotMultiWorker p =
      (errorTrace p.stored "Invalid snapshot format: missing messages array",
       some "Invalid snapshot format: missing messages array") := by
  unfold cacheDecryptedSnapshotMultiWorker
  rw [hmo, hmsg]
  rfl

/-- Run equation of `cacheDecryptedSnapshotMultiWorker` when the caller
    supplies `options.metadata` and the payload carries a messages array. -/
theorem cache_run_eq_some (p : CacheParams) (m : SnapshotMetadata)
    (messages : List Message)
    (hmo : p.metadataOpt = some m) (hmsg : p.decryptedData.messages = some messages) :
    cacheDecryptedSnapshotMultiWorker p =
        (if messages.length = 0 then
          ([Effect.putMetadata { m with
               projectId := p.decryptedData.projectId,
               queueId := p.decryptedData.queueId,
               messageCount := 0, totalMessages := some 0,
               status := SnapStatus.completed, processedMessages := 0 },
            Effect.progress (emptyCompletedEvent p.decryptDurationMs)], none)
        else
          let totalMessages := messages.length
          let resumeFrom := min m.processedMessages totalMessages
          let messagesToInsert :=
            if 0 < resumeFrom then messages.drop resumeFrom else messages
          let m1 := { m with
                        projectId := p.decryptedData.projectId,
                        queueId := p.decryptedData.queueId,
                        messageCount := jsOrNat p.decryptedData.messageCount totalMessages,
                        totalMessages := some totalMessages,
                        firstMessageDate := messages.head?.map (fun x => x.created_at),
                        lastMessageDate := messages.getLast?.map (fun x => x.created_at) }
          if messagesToInsert.length = 0 then
            ([Effect.putMetadata m1,
              Effect.putMetadata { m1 with status := SnapStatus.completed,
                                           processedMessages := totalMessages },
              Effect.progress (resumeSkipCompletedEvent totalMessages
                p.decryptDurationMs)], none)
          else
            let chunks := chunkMessages messagesToInsert
              (calculateOptimalChunkSize messagesToInsert.length p.workerCount)
            ([Effect.putMetadata m1,
              Effect.progress (savingEvent resumeFrom totalMessages),
              Effect.poolCreate p.workerCount chunks.length]
              ++ chunks.enum.map (fun ic => Effect.submitChunk ic.1 ic.2)
              ++ [Effect.putMetadata { m1 with status := SnapStatus.completed,
                                               processedMessages := totalMessages },
                  Effect.progress (finalCompletedEvent resumeFrom totalMessages
                    messagesToInsert.length p.decryptDurationMs
                    p.insertDurationMs)], none)) := by
  unfold cacheDecryptedSnapshotMultiWorker
  rw [hmo, hmsg]
  rfl

/-- Run equation of `cacheDecryptedSnapshotMultiWorker` when no
    `options.metadata` is supplied, the metadata-init step does not skip, and
    the payload has no messages array: the ensured 'processing' row is
    written, then the catch block runs. -/
theorem cache_run_eq_none_noMsgs (p : CacheParams) (hmo : p.metadataOpt = none)
    (hskip : (ensureProcessingMetadata p.snapshotId p.stored p.now).skip = false)
    (hmsg : p.decryptedData.messages = none) :
    cacheDecryptedSnapshotMultiWorker p =
      (Effect.putMetadata (ensureProcessingMetadata p.snapshotId p.stored p.now).metadata ::
         errorTrace (some (ensureProcessingMetadata p.snapshotId p.stored p.now).metadata)
           "Invalid snapshot format: missing messages array",
       some "Invalid snapshot format: missing messages array") := by
  unfold cacheDecryptedSnapshotMultiWorker
  rw [hmo, hmsg]
  simp only [hskip, Bool.false_eq_true, if_false]
  rfl

/-- Run equation of `cacheDecryptedSnapshotMultiWorker` when no
    `options.metadata` is supplied and the metadata-init step does not skip:
    the ensured 'processing' row is written first, and the run proceeds on it. -/
theorem cache_run_eq_none (p : CacheParams) (messages : List Message)
    (hmo : p.metadataOpt = none)
    (hskip : (ensureProcessingMetadata p.snapshotId p.stored p.now).skip = false)
    (hmsg : p.decryptedData.messages = some messages) :
    cacheDecryptedSnapshotMultiWorker p =
      (let md := (ensureProcessingMetadata p.snapshotId p.stored p.now).metadata
       if messages.length = 0 then
           ([Effect.putMetadata md,
             Effect.putMetadata { md with
                projectId := p.decryptedData.projectId,
                queueId := p.decryptedData.queueId,
                messageCount := 0, totalMessages := some 0,
                status := SnapStatus.completed, processedMessages := 0 },
             Effect.progress (emptyCompletedEvent p.decryptDurationMs)], none)
         else
           let totalMessages := messages.length
           let resumeFrom := min md.processedMessages totalMessages
           let messagesToInsert :=
             if 0 < resumeFrom then messages.drop resumeFrom else messages
           let m1 := { md with
                         projectId := p.decryptedData.projectId,
                         queueId := p.decryptedData.queueId,
                         messageCount := jsOrNat p.decryptedData.messageCount totalMessages,
                         totalMessages := some totalMessages,
                         firstMessageDate := messages.head?.map (fun x => x.created_at),
                         lastMessageDate := messages.getLast?.map (fun x => x.created_at) }
           if messagesToInsert.length = 0 then
             ([Effect.putMetadata md,
               Effect.putMetadata m1,
               Effect.putMetadata { m1 with status := SnapStatus.completed,
                                            processedMessages := totalMessages },
               Effect.progress (resumeSkipCompletedEvent totalMessages
                 p.decryptDurationMs)], none)
           else
             let chunks := chunkMessages messagesToInsert
               (calculateOptimalChunkSize messagesToInsert.length p.workerCount)
             ([Effect.putMetadata md,
               Effect.putMetadata m1,
               Effect.progress (savingEvent resumeFrom totalMessages),
               Effect.poolCreate p.workerCount chunks.length]
               ++ chunks.enum.map (fun ic => Effect.submitChunk ic.1 ic.2)
               ++ [Effect.putMetadata { m1 with status := SnapStatus.completed,
                                                processedMessages := totalMessages },
                   Effect.progress (finalCompletedEvent resumeFrom totalMessages
                     messagesToInsert.length p.decryptDurationMs
                     p.insertDurationMs)], none)) := by
  unfold cacheDecryptedSnapshotMultiWorker
  rw [hmo, hmsg]
  simp only [hskip, Bool.false_eq_true, if_false]
  rfl

/-- Written statuses of a cache run invoked the way the streaming entry point
    does (caller-supplied 'processing' metadata, stored row equal to it):
    either the run rethrows and wrote exactly one 'error' row, or it finishes
    having written 'completed' last, optionally preceded by one 'processing'
    update. -/
theorem cache_statuses_entry (p : CacheParams) (m : SnapshotMetadata)
    (hmo : p.metadataOpt = some m) (hms : m.status = .processing)
    (hst : p.stored = some m) :
    (writtenStatuses (cacheDecryptedSnapshotMultiWorker p).1 = [.error] ∧
       (cacheDecryptedSnapshotMultiWorker p).2.isSome = true) ∨
    ((writtenStatuses (cacheDecryptedSnapshotMultiWorker p).1 = [.completed] ∨
      writtenStatuses (cacheDecryptedSnapshotMultiWorker p).1
        = [.processing, .completed]) ∧
       (cacheDecryptedSnapshotMultiWorker p).2 = none) := by
  cases hmsg : p.decryptedData.messages with
  | none =>
    left
    rw [cache_run_eq_some_noMsgs p m hmo hmsg, hst]
    exact ⟨rfl, rfl⟩
  | some ms =>
    right
    rw [cache_run_eq_some p m ms hmo hmsg]
    by_cases hz : ms.length = 0
    · rw [if_pos hz]
      exact ⟨Or.inl rfl, rfl⟩
    · rw [if_neg hz]
      dsimp only
      constructor
      · split_ifs <;>
          (right
           simp [writtenStatuses, metadataWrites_append, metadataWrites_cons_put,
             metadataWrites_cons_progress, metadataWrites_cons_pool,
             metadataWrites_nil, metadataWrites_enum, hms])
      · split_ifs <;> rfl

/-- C5 (amended): a metadata row with status 'completed' is terminal — once
    stored, a re-invocation of either pipeline entry point writes nothing —
    and within any single run the written statuses obey the discipline of
    `terminalStatusesOK` ('completed' is always the final write of its run;
    writes after an 'error' write can only repeat 'error'). 'error' itself is
    not terminal across runs: see the accompanying counterexample. -/
theorem c5_status_transitions :
    (∀ (q : StreamParams) (m : SnapshotMetadata),
        q.stored = some m → m.status = .completed →
        metadataWrites (decryptAndStreamToIndexedDBMultiWorker q) = []) ∧
    (∀ (p : CacheParams) (m : SnapshotMetadata),
        p.metadataOpt = none → p.stored = some m → m.status = .completed →
        metadataWrites (cacheDecryptedSnapshotMultiWorker p).1 = []) ∧
    (∀ q : StreamParams,
        terminalStatusesOK
          (writtenStatuses (decryptAndStreamToIndexedDBMultiWorker q)) = true) ∧
    (∀ p : CacheParams, p.metadataOpt = none →
        terminalStatusesOK
          (writtenStatuses (cacheDecryptedSnapshotMultiWorker p).1) = true) := by
  refine ⟨?_, ?_, ?_, ?_⟩
  · intro q m hst hc
    unfold decryptAndStreamToIndexedDBMultiWorker
    rw [hst]
    simp [ensureProcessingMetadata, hc, metadataWrites]
  · intro p m hmo hst hc
    unfold cacheDecryptedSnapshotMultiWorker
    rw [hmo, hst]
    simp [ensureProcessingMetadata, hc, metadataWrites]
  · intro q
    unfold decryptAndStreamToIndexedDBMultiWorker
    by_cases hskip : (ensureProcessingMetadata q.snapshotId q.stored q.now).skip
    · simp [hskip, writtenStatuses, metadataWrites, terminalStatusesOK]
    · have hskipf : (ensureProcessingMetadata q.snapshotId q.stored q.now).skip = false := by
        simpa using hskip
      have hproc := ensure_not_skip_processing q.snapshotId q.stored q.now hskipf
      rw [if_neg hskip]
      cases hdo : q.decryptOutcome with
      | error msg =>
        simp [writtenStatuses_append, writtenStatuses, metadataWrites,
          errorTrace, hproc, terminalStatusesOK]
      | ok d =>
        have hc := cache_statuses_entry
          { snapshotId := q.snapshotId, decryptedData := d,
            stored := some (ensureProcessingMetadata q.snapshotId q.stored q.now).metadata,
            metadataOpt := some (ensureProcessingMetadata q.snapshotId q.stored q.now).metadata,
            workerCount := q.workerCount, now := q.now,
            decryptDurationMs := some q.decryptDurationMs,
            insertDurationMs := q.insertDurationMs }
          (ensureProcessingMetadata q.snapshotId q.stored q.now).metadata rfl hproc rfl
        have hpre : writtenStatuses
            ([Effect.putMetadata (ensureProcessingMetadata q.snapshotId q.stored q.now).metadata,
              Effect.progress downloadingEvent]
              ++ [Effect.decrypt, Effect.progress processingEvent])
            = [(ensureProcessingMetadata q.snapshotId q.stored q.now).metadata.status] := rfl
        cases hrun : (cacheDecryptedSnapshotMultiWorker
            { snapshotId := q.snapshotId, decryptedData := d,
              stored := some (ensureProcessingMetadata q.snapshotId q.stored q.now).metadata,
              metadataOpt := some (ensureProcessingMetadata q.snapshotId q.stored q.now).metadata,
              workerCount := q.workerCount, now := q.now,
              decryptDurationMs := some q.decryptDurationMs,
              insertDurationMs := q.insertDurationMs }).2 with
        | none =>
          rcases hc with ⟨_, h2⟩ | ⟨h1, _⟩
          · rw [hrun] at h2
            simp at h2
          · simp only [hrun]
            rw [writtenStatuses_append, hpre, hproc]
            rcases h1 with h1 | h1 <;> rw [h1] <;> decide
        | some msg =>
          rcases hc with ⟨h1, _⟩ | ⟨_, h2⟩
          · obtain ⟨x, hx⟩ := lastStored_some
              (ensureProcessingMetadata q.snapshotId q.stored q.now).metadata
              (cacheDecryptedSnapshotMultiWorker
                { snapshotId := q.snapshotId, decryptedData := d,
                  stored := some (ensureProcessingMetadata q.snapshotId q.stored q.now).metadata,
                  metadataOpt := some (ensureProcessingMetadata q.snapshotId q.stored q.now).metadata,
                  workerCount := q.workerCount, now := q.now,
                  decryptDurationMs := some q.decryptDurationMs,
                  insertDurationMs := q.insertDurationMs }).1
            simp only [hrun, hx]
            rw [writtenStatuses_append, writtenStatuses_append, hpre, hproc, h1,
              writtenStatuses_errorTrace_some]
            decide
          · rw [hrun] at h2
            simp at h2
  · intro p hmo
    by_cases hskip : (ensureProcessingMetadata p.snapshotId p.stored p.now).skip
    · unfold cacheDecryptedSnapshotMultiWorker
      rw [hmo]
      simp [hskip, writtenStatuses, metadataWrites, terminalStatusesOK]
    · have hskipf : (ensureProcessingMetadata p.snapshotId p.stored p.now).skip = false := by
        simpa using hskip
      have hproc := ensure_not_skip_processing p.snapshotId p.stored p.now hskipf
      cases hmsg : p.decryptedData.messages with
      | none =>
        rw [cache_run_eq_none_noMsgs p hmo hskipf hmsg]
        simp [writtenStatuses, metadataWrites_cons_put, metadataWrites_cons_progress,
          metadataWrites_nil, metadataWrites_append, errorTrace, hproc,
          terminalStatusesOK]
      | some ms =>
        rw [cache_run_eq_none p ms hmo hskipf hmsg]
        by_cases hz : ms.length = 0
        · rw [if_pos hz]
          simp [writtenStatuses, metadataWrites_cons_put, metadataWrites_cons_progress,
            metadataWrites_nil, hproc, terminalStatusesOK]
        · rw [if_neg hz]
          dsimp only
          split_ifs <;>
            simp [writtenStatuses, metadataWrites_append, metadataWrites_cons_put,
              metadataWrites_cons_progress, metadataWrites_cons_pool,
              metadataWrites_nil, metadataWrites_enum, hproc, terminalStatusesOK]

/-- C5 counterexample: re-invoking the caching pipeline on a snapshot whose
    stored metadata has status 'error' writes, as its first metadata write, a
    record with status 'processing' (`ensureProcessingMetadata` resets every
    non-completed row) — an operation of the pipeline that moves a snapshot
    out of the 'error' status, so 'error' is not terminal as claimed. -/
theorem c5_error_not_terminal_counterexample :
    (demoMeta 0 .error).status = SnapStatus.error ∧
    (writtenStatuses (cacheDecryptedSnapshotMultiWorker
        { snapshotId := "snap", decryptedData := { messages := some [] },
          stored := some (demoMeta 0 .error), metadataOpt := none,
          workerCount := 4, now := "t", decryptDurationMs := none,
          insertDurationMs := 0 }).1).head? = some SnapStatus.processing := by
  constructor
  · rfl
  · simp [cacheDecryptedSnapshotMultiWorker, ensureProcessingMetadata, demoMeta,
      writtenStatuses, metadataWrites]

/-- Witness for c5_status_transitions: a completed snapshot, re-invoked,
    triggers no metadata write at all. -/
theorem c5_status_transitions_witness :
    metadataWrites (decryptAndStreamToIndexedDBMultiWorker
      { snapshotId := "snap", stored := some (demoMeta 5 .completed),
        decryptOutcome := .error "unused", workerCount := 4, now := "t",
        decryptDurationMs := 0, insertDurationMs := 0 }) = [] :=
  c5_status_transitions.1 _ (demoMeta 5 .completed) rfl rfl

/-- Values produced by the minimal MessagePack decoder `decodeMsgpack`
    (decrypt-snapshot-streaming-full-worker.ts). Strings are kept as their
    raw UTF-8 bytes (TextDecoder is byte-faithful on the ASCII property names
    the pipeline looks up); float payloads are kept as their big-endian bytes
    (the host reinterprets them as IEEE numbers; no claim depends on the
    numeric value); extension payloads decode to opaque byte buffers exactly
    as in the source; maps are association lists in encounter order (the JS
    object built by assignment gives a later duplicate key precedence, which
    `mapLookupStr` reproduces). -/
inductive MVal where
  | nil
  | bool (b : Bool)
  | int (n : Int)
  | float32 (bytes : List Nat)
  | float64 (bytes : List Nat)
  | str (bytes : List Nat)
  | bin (bytes : List Nat)
  | arr (items : List MVal)
  | map (entries : List (MVal × MVal))

/-- Decode failures of `decodeMsgpack`: the default-branch throw carries the
    offset and the tag byte (`none` when the read ran past the buffer, where
    JS reads `undefined` and likewise lands in the default branch); `range`
    models the RangeError a DataView constructor raises when a float/64-bit
    read would cross the end of the buffer; `fuelExhausted` is the recursion
    bound of the embedding, unreachable from `decodeMsgpack` (see there). -/
inductive DecodeErr where
  | unsupported (offset : Nat) (tag : Option Nat)
  | range (offset : Nat)
  | fuelExhausted (offset : Nat)
deriving DecidableEq, Repr

/-- JS `buffer.slice(start, stop)`: clamps at the buffer end. -/
def jsSlice (buffer : List Nat) (start stop : Nat) : List Nat :=
  (buffer.drop start).take (stop - start)

/-- Big-endian multi-byte read: JS `(acc << 8) | byte` folded over `n` bytes
    starting at `start`, with out-of-range reads contributing 0 (`undefined`
    coerces to 0 in JS bitwise arithmetic). The 32-bit signed overflow of the
    JS shift for values at and beyond 2^31 (which would need a buffer of
    gigabytes to matter) is not modelled. -/
def beBytesAt (buffer : List Nat) (start n : Nat) : Nat :=
  (List.range n).foldl (fun acc i => acc * 256 + buffer.getD (start + i) 0) 0

/-- Sequential decoding of `n` values (the fixarray/array16/array32 element
    loops), threading the offset; `dec` is the decoder for one value. -/
def decodeSeq (dec : List Nat → Nat → Except DecodeErr (MVal × Nat))
    (buffer : List Nat) : Nat → Nat → Except DecodeErr (List MVal × Nat)
  | 0, offset => .ok ([], offset)
  | n + 1, offset => do
    let (v, o₁) ← dec buffer offset
    let (vs, o₂) ← decodeSeq dec buffer n o₁
    .ok (v :: vs, o₂)

/-- Sequential decoding of `n` key/value pairs (the fixmap/map16/map32
    loops), threading the offset. -/
def decodePairsSeq (dec : List Nat → Nat → Except DecodeErr (MVal × Nat))
    (buffer : List Nat) : Nat → Nat → Except DecodeErr (List (MVal × MVal) × Nat)
  | 0, offset => .ok ([], offset)
  | n + 1, offset => do
    let (k, o₁) ← dec buffer offset
    let (v, o₂) ← dec buffer o₁
    let (kvs, o₃) ← decodePairsSeq dec buffer n o₂
    .ok ((k, v) :: kvs, o₃)

/-- One dispatch step of `decodeMsgpack` over the leading tag byte, with
    `dec` standing for the recursive calls. Branches appear in source order:
    nil/booleans, positive and negative fixint, fixstr, fixmap, fixarray,
    then the switch over bin/ext/fixext/float/uint/int/str/array/map formats,
    and the default throw for any other tag. `readStr`/`readBin` mirror the
    inner helpers (length prefix of 1/2/4 bytes, then the payload). Reading
    the tag past the end of the buffer yields JS `undefined`, which falls
    through every branch into the default throw. -/
def decodeStep (dec : List Nat → Nat → Except DecodeErr (MVal × Nat))
    (buffer : List Nat) (offset : Nat) : Except DecodeErr (MVal × Nat) :=
  match buffer.get? offset with
  | none => .error (.unsupported offset none)
  | some t =>
    let readStr := fun (lenBytes : Nat) =>
      let len := beBytesAt buffer (offset + 1) lenBytes
      let start := offset + 1 + lenBytes
      Except.ok (MVal.str (jsSlice buffer start (start + len)), start + len)
    let readBin := fun (lenBytes : Nat) =>
      let len := beBytesAt buffer (offset + 1) lenBytes
      let start := offset + 1 + lenBytes
      Except.ok (MVal.bin (jsSlice buffer start (start + len)), start + len)
    if t = 0xc0 then .ok (.nil, offset + 1)
    else if t = 0xc2 then .ok (.bool false, offset + 1)
    else if t = 0xc3 then .ok (.bool true, offset + 1)
    else if t ≤ 0x7f then .ok (.int t, offset + 1)
    else if 0xe0 ≤ t then .ok (.int ((t : Int) - 0x100), offset + 1)
    else if t &&& 0xe0 = 0xa0 then
      let len := t &&& 0x1f
      .ok (.str (jsSlice buffer (offset + 1) (offset + 1 + len)), offset + 1 + len)
    else if t &&& 0xf0 = 0x80 then
      match decodePairsSeq dec buffer (t &&& 0x0f) (offset + 1) with
      | .error e => .error e
      | .ok (kvs, o) => .ok (.map kvs, o)
    else if t &&& 0xf0 = 0x90 then
      match decodeSeq dec buffer (t &&& 0x0f) (offset + 1) with
      | .error e => .error e
      | .ok (vs, o) => .ok (.arr vs, o)
    else if t = 0xc4 then readBin 1
    else if t = 0xc5 then readBin 2
    else if t = 0xc6 then readBin 4
    else if t = 0xc7 then
      let len := buffer.getD (offset + 1) 0
      let start := offset + 3
      .ok (.bin (jsSlice buffer start (start + len)), start + len)
    else if t = 0xc8 then
      let len := beBytesAt buffer (offset + 1) 2
      let start := offset + 4
      .ok (.bin (jsSlice buffer start (start + len)), start + len)
    else if t = 0xc9 then
      let len := beBytesAt buffer (offset + 1) 4
      let start := offset + 6
      .ok (.bin (jsSlice buffer start (start + len)), start + len)
    else if t = 0xd4 then .ok (.bin (jsSlice buffer (offset + 2) (offset + 3)), offset + 3)
    else if t = 0xd5 then .ok (.bin (jsSlice buffer (offset + 2) (offset + 4)), offset + 4)
    else if t = 0xd6 then .ok (.bin (jsSlice buffer (offset + 2) (offset + 6)), offset + 6)
    else if t = 0xd7 then .ok (.bin (jsSlice buffer (offset + 2) (offset + 10)), offset + 10)
    else if t = 0xd8 then .ok (.bin (jsSlice buffer (offset + 2) (offset + 18)), offset + 18)
    else if t = 0xca then
      if buffer.length < offset + 1 + 4 then .error (.range offset)
      else .ok (.float32 (jsSlice buffer (offset + 1) (offset + 5)), offset + 5)
    else if t = 0xcb then
      if buffer.length < offset + 1 + 8 then .error (.range offset)
      else .ok (.float64 (jsSlice buffer (offset + 1) (offset + 9)), offset + 9)
    else if t = 0xcc then .ok (.int (buffer.getD (offset + 1) 0), offset + 2)
    else if t = 0xcd then .ok (.int (beBytesAt buffer (offset + 1) 2), offset + 3)
    else if t = 0xce then .ok (.int (beBytesAt buffer (offset + 1) 4), offset + 5)
    else if t = 0xcf then
      if buffer.length < offset + 1 + 8 then .error (.range offset)
      else .ok (.int (beBytesAt buffer (offset + 1) 8), offset + 9)
    else if t = 0xd0 then
      let v := buffer.getD (offset + 1) 0
      .ok (.int (if 127 < v then (v : Int) - 256 else v), offset + 2)
    else if t = 0xd1 then
      let v := beBytesAt buffer (offset + 1) 2
      .ok (.int (if 32767 < v then (v : Int) - 65536 else v), offset + 3)
    else if t = 0xd2 then
      let v := beBytesAt buffer (offset + 1) 4
      .ok (.int (if 0x80000000 ≤ v then (v : Int) - 0x100000000 else v), offset + 5)
    else if t = 0xd3 then
      if buffer.length < offset + 1 + 8 then .error (.range offset)
      else
        let v := beBytesAt buffer (offset + 1) 8
        .ok (.int (if 0x8000000000000000 ≤ v
          then (v : Int) - 0x10000000000000000 else v), offset + 9)
    else if t = 0xd9 then readStr 1
    else if t = 0xda then readStr 2
    else if t = 0xdb then readStr 4
    else if t = 0xdc then
      match decodeSeq dec buffer (beBytesAt buffer (offset + 1) 2) (offset + 3) with
      | .error e => .error e
      | .ok (vs, o) => .ok (.arr vs, o)
    else if t = 0xdd then
      match decodeSeq dec buffer (beBytesAt buffer (offset + 1) 4) (offset + 5) with
      | .error e => .error e
      | .ok (vs, o) => .ok (.arr vs, o)
    else if t = 0xde then
      match decodePairsSeq dec buffer (beBytesAt buffer (offset + 1) 2) (offset + 3) with
      | .error e => .error e
      | .ok (kvs, o) => .ok (.map kvs, o)
    else if t = 0xdf then
      match decodePairsSeq dec buffer (beBytesAt buffer (offset + 1) 4) (offset + 5) with
      | .error e => .error e
      | .ok (kvs, o) => .ok (.map kvs, o)
    else .error (.unsupported offset (some t))

/-- Fuel-indexed recursion for `decodeMsgpack`, unfolded through `Nat.rec` so
    that concrete decodes compute definitionally. Each nesting level of the
    source recursion passes to the next level with one unit of fuel less. -/
def decodeMsgpackFuel (fuel : Nat) : List Nat → Nat → Except DecodeErr (MVal × Nat) :=
  Nat.rec (motive := fun _ => List Nat → Nat → Except DecodeErr (MVal × Nat))
    (fun _ offset => .error (.fuelExhausted offset))
    (fun _ ih => decodeStep ih)
    fuel

/-- `decodeMsgpack(buffer, offset)`: the recursive MessagePack decoder. Fuel
    `buffer.length + 1` bounds the recursion depth: every nested decode
    starts at a strictly larger offset (each successful decode consumes at
    least its tag byte) and a decode starting past the end of the buffer
    fails immediately in the default branch, so the nesting depth never
    exceeds the buffer length and `fuelExhausted` is unreachable from this
    entry point. -/
def decodeMsgpack (buffer : List Nat) (offset : Nat) : Except DecodeErr (MVal × Nat) :=
  decodeMsgpackFuel (buffer.length + 1) buffer offset

/-- The tag table of `decodeMsgpack`: exactly the tag bytes with a branch in
    `decodeStep` (every byte except 0xc1 when tags are in range 0..255). -/
def msgpackDefined (t : Nat) : Bool :=
  t == 0xc0 || t == 0xc2 || t == 0xc3 || decide (t ≤ 0x7f) || decide (0xe0 ≤ t) ||
  t &&& 0xe0 == 0xa0 || t &&& 0xf0 == 0x80 || t &&& 0xf0 == 0x90 ||
  t == 0xc4 || t == 0xc5 || t == 0xc6 || t == 0xc7 || t == 0xc8 || t == 0xc9 ||
  t == 0xd4 || t == 0xd5 || t == 0xd6 || t == 0xd7 || t == 0xd8 ||
  t == 0xca || t == 0xcb || t == 0xcc || t == 0xcd || t == 0xce || t == 0xcf ||
  t == 0xd0 || t == 0xd1 || t == 0xd2 || t == 0xd3 ||
  t == 0xd9 || t == 0xda || t == 0xdb || t == 0xdc || t == 0xdd ||
  t == 0xde || t == 0xdf

/-- C8: whenever the leading tag byte at the given offset is outside the
    binary decoder's defined tag table, `decodeMsgpack` raises a hard decode
    error identifying both the offset and the tag value, and returns no
    value at all (the `Except` error carries nothing else). -/
theorem c8_unknown_tag (buffer : List Nat) (offset : Nat) (t : Nat)
    (h : buffer.get? offset = some t) (hd : msgpackDefined t = false) :
    decodeMsgpack buffer offset = .error (.unsupported offset (some t)) := by
  have n1 : ¬ t = 0xc0 := fun hc => by
    rw [hc] at hd
    exact absurd hd (by decide)
  have n2 : ¬ t = 0xc2 := fun hc => by
    rw [hc] at hd
    exact absurd hd (by decide)
  have n3 : ¬ t = 0xc3 := fun hc => by
    rw [hc] at hd
    exact absurd hd (by decide)
  have n4 : ¬ t ≤ 0x7f := fun hc => by
    have ht : msgpackDefined t = true := by
      simp [msgpackDefined, decide_eq_true hc]
    rw [ht] at hd
    exact absurd hd (by decide)
  have n5 : ¬ 0xe0 ≤ t := fun hc => by
    have ht : msgpackDefined t = true := by
      simp [msgpackDefined, decide_eq_true hc]
    rw [ht] at hd
    exact absurd hd (by decide)
  have n6 : ¬ t &&& 0xe0 = 0xa0 := fun hc => by
    have ht : msgpackDefined t = true := by
      simp [msgpackDefined, hc]
    rw [ht] at hd
    exact absurd hd (by decide)
  have n7 : ¬ t &&& 0xf0 = 0x80 := fun hc => by
    have ht : msgpackDefined t = true := by
      simp [msgpackDefined, hc]
    rw [ht] at hd
    exact absurd hd (by decide)
  have n8 : ¬ t &&& 0xf0 = 0x90 := fun hc => by
    have ht : msgpackDefined t = true := by
      simp [msgpackDefined, hc]
    rw [ht] at hd
    exact absurd hd (by decide)
  have n9 : ¬ t = 0xc4 := fun hc => by
    rw [hc] at hd
    exact absurd hd (by decide)
  have n10 : ¬ t = 0xc5 := fun hc => by
    rw [hc] at hd
    exact absurd hd (by decide)
  have n11 : ¬ t = 0xc6 := fun hc => by
    rw [hc] at hd
    exact absurd hd (by decide)
  have n12 : ¬ t = 0xc7 := fun hc => by
    rw [hc] at hd
    exact absurd hd (by decide)
  have n13 : ¬ t = 0xc8 := fun hc => by
    rw [hc] at hd
    exact absurd hd (by decide)
  have n14 : ¬ t = 0xc9 := fun hc => by
    rw [hc] at hd
    exact absurd hd (by decide)
  have n15 : ¬ t = 0xd4 := fun hc => by
    rw [hc] at hd
    exact absurd hd (by decide)
  have n16 : ¬ t = 0xd5 := fun hc => by
    rw [hc] at hd
    exact absurd hd (by decide)
  have n17 : ¬ t = 0xd6 := fun hc => by
    rw [hc] at hd
    exact absurd hd (by decide)
  have n18 : ¬ t = 0xd7 := fun hc => by
    rw [hc] at hd
    exact absurd hd (by decide)
  have n19 : ¬ t = 0xd8 := fun hc => by
    rw [hc] at hd
    exact absurd hd (by decide)
  have n20 : ¬ t = 0xca := fun hc => by
    rw [hc] at hd
    exact absurd hd (by decide)
  have n21 : ¬ t = 0xcb := fun hc => by
    rw [hc] at hd
    exact absurd hd (by decide)
  have n22 : ¬ t = 0xcc := fun hc => by
    rw [hc] at hd
    exact absurd hd (by decide)
  have n23 : ¬ t = 0xcd := fun hc => by
    rw [hc] at hd
    exact absurd hd (by decide)
  have n24 : ¬ t = 0xce := fun hc => by
    rw [hc] at hd
    exact absurd hd (by decide)
  have n25 : ¬ t = 0xcf := fun hc => by
    rw [hc] at hd
    exact absurd hd (by decide)
  have n26 : ¬ t = 0xd0 := fun hc => by
    rw [hc] at hd
    exact absurd hd (by decide)
  have n27 : ¬ t = 0xd1 := fun hc => by
    rw [hc] at hd
    exact absurd hd (by decide)
  have n28 : ¬ t = 0xd2 := fun hc => by
    rw [hc] at hd
    exact absurd hd (by decide)
  have n29 : ¬ t = 0xd3 := fun hc => by
    rw [hc] at hd
    exact absurd hd (by decide)
  have n30 : ¬ t = 0xd9 := fun hc => by
    rw [hc] at hd
    exact absurd hd (by decide)
  have n31 : ¬ t = 0xda := fun hc => by
    rw [hc] at hd
    exact absurd hd (by decide)
  have n32 : ¬ t = 0xdb := fun hc => by
    rw [hc] at hd
    exact absurd hd (by decide)
  have n33 : ¬ t = 0xdc := fun hc => by
    rw [hc] at hd
    exact absurd hd (by decide)
  have n34 : ¬ t = 0xdd := fun hc => by
    rw [hc] at hd
    exact absurd hd (by decide)
  have n35 : ¬ t = 0xde := fun hc => by
    rw [hc] at hd
    exact absurd hd (by decide)
  have n36 : ¬ t = 0xdf := fun hc => by
    rw [hc] at hd
    exact absurd hd (by decide)
  have h1 : decodeMsgpack buffer offset
      = decodeStep (decodeMsgpackFuel buffer.length) buffer offset := rfl
  rw [h1]
  simp only [decodeStep, h]
  rw [if_neg n1, if_neg n2, if_neg n3, if_neg n4, if_neg n5, if_neg n6, if_neg n7, if_neg n8, if_neg n9, if_neg n10, if_neg n11, if_neg n12, if_neg n13, if_neg n14, if_neg n15, if_neg n16, if_neg n17, if_neg n18, if_neg n19, if_neg n20, if_neg n21, if_neg n22, if_neg n23, if_neg n24, if_neg n25, if_neg n26, if_neg n27, if_neg n28, if_neg n29, if_neg n30, if_neg n31, if_neg n32, if_neg n33, if_neg n34, if_neg n35, if_neg n36]

/-- Witness for c8_unknown_tag: tag 0xc1 (the one byte without a branch) at
    offset 0. -/
theorem c8_unknown_tag_witness :
    decodeMsgpack [0xc1] 0 = .error (.unsupported 0 (some 0xc1)) :=
  c8_unknown_tag [0xc1] 0 0xc1 rfl (by decide)

/-- ASCII bytes of the property name "wrappedKey". -/
def wrappedKeyBytes : List Nat := [119, 114, 97, 112, 112, 101, 100, 75, 101, 121]

/-- ASCII bytes of the property name "compression". -/
def compressionBytes : List Nat := [99, 111, 109, 112, 114, 101, 115, 115, 105, 111, 110]

/-- ASCII bytes of the string "gzip". -/
def gzipBytes : List Nat := [103, 122, 105, 112]

/-- The 4-byte magic "OSNP". -/
def osnpMagic : List Nat := [0x4f, 0x53, 0x4e, 0x50]

/-- Property lookup `obj[name]` on a decoded msgpack map: the JS object is
    built by assignment in encounter order, so a later duplicate key wins;
    only a decoded string key equal byte-wise to the ASCII property name can
    produce that property (other key types coerce to different strings). -/
def mapLookupStr (entries : List (MVal × MVal)) (key : List Nat) : Option MVal :=
  entries.foldl
    (fun acc kv =>
      match kv.1 with
      | .str s => if s = key then some kv.2 else acc
      | _ => acc) none

/-- IEEE-754 zero bit pattern over big-endian bytes: sign bit free, all
    other bits zero. -/
def floatIsZeroPattern (bytes : List Nat) : Bool :=
  match bytes with
  | [] => true
  | b :: rest => (b == 0 || b == 0x80) && rest.all (fun x => x == 0)

/-- IEEE-754 single-precision NaN bit pattern over 4 big-endian bytes. -/
def float32IsNaNPattern (bytes : List Nat) : Bool :=
  (bytes.getD 0 0 &&& 0x7f == 0x7f) && (bytes.getD 1 0 &&& 0x80 == 0x80) &&
    (bytes.getD 1 0 &&& 0x7f != 0 || bytes.getD 2 0 != 0 || bytes.getD 3 0 != 0)

/-- IEEE-754 double-precision NaN bit pattern over 8 big-endian bytes. -/
def float64IsNaNPattern (bytes : List Nat) : Bool :=
  (bytes.getD 0 0 &&& 0x7f == 0x7f) && (bytes.getD 1 0 &&& 0xf0 == 0xf0) &&
    (bytes.getD 1 0 &&& 0x0f != 0 || (bytes.drop 2).any (fun x => x != 0))

/-- JS truthiness of a decoded msgpack value (used by `!header.wrappedKey`):
    null, false, numeric zero, NaN and the empty string are falsy; objects
    (buffers, arrays, maps) are always truthy. Float truthiness is decided on
    the bit pattern (zero and NaN patterns are falsy). -/
def MVal.truthy : MVal → Bool
  | .nil => false
  | .bool b => b
  | .int n => n != 0
  | .float32 bs => !(floatIsZeroPattern bs || float32IsNaNPattern bs)
  | .float64 bs => !(floatIsZeroPattern bs || float64IsNaNPattern bs)
  | .str s => !s.isEmpty
  | .bin _ => true
  | .arr _ => true
  | .map _ => true

/-- Header validation `!header || typeof header !== 'object' ||
    !header.wrappedKey` of decryptOsnpSnapshot: among decoded msgpack values
    only a map can pass (arrays and byte buffers are objects but carry no
    wrappedKey property; primitives fail the typeof test), and its wrappedKey
    entry must be truthy. -/
def osnpHeaderOk (h : MVal) : Bool :=
  match h with
  | .map entries =>
    match mapLookupStr entries wrappedKeyBytes with
    | some v => v.truthy
    | none => false
  | _ => false

/-- Failures of the OSNP decryption path: the buffer/magic/header checks, a
    header decode failure at both candidate offsets (carrying the second
    decode error, which the source rethrows), the RangeError of the
    cipher-length read, a wrappedKey that is not a byte buffer (the
    subtle.decrypt TypeError), and failures of the crypto primitives. -/
inductive OsnpError where
  | tooSmall
  | badMagic
  | headerDecode (e : DecodeErr)
  | invalidHeader
  | cipherLenOutOfRange
  | wrappedKeyNotBytes
  | cryptoFailure (msg : String)
deriving DecidableEq, Repr

/-- Components read from an OSNP container: the header (decoded at
    `headerOffset`, ending at `afterHeader`), the 4-byte big-endian cipher
    length, and the nonce/tag/ciphertext slices. -/
structure OsnpParsed where
  headerOffset : Nat
  header : MVal
  afterHeader : Nat
  cipherLen : Nat
  nonce : List Nat
  tag : List Nat
  ciphertext : List Nat

/-- Tail of the OSNP container parse after a successful header decode:
    validate the header, read the 4-byte big-endian cipher length at
    `afterHeader` (the DataView getUint32 raises a RangeError when those four
    bytes cross the buffer end), then slice the 12-byte nonce, the 16-byte
    tag and the ciphertext of the declared length, in that order. -/
def decryptOsnpParseTail (buffer : List Nat) (headerOffset : Nat) (header : MVal)
    (afterHeader : Nat) : Except OsnpError OsnpParsed :=
  if ¬ osnpHeaderOk header then .error .invalidHeader
  else if buffer.length < afterHeader + 4 then .error .cipherLenOutOfRange
  else
    let cipherLen := beBytesAt buffer afterHeader 4
    let nonceStart := afterHeader + 4
    .ok { headerOffset := headerOffset, header := header, afterHeader := afterHeader,
          cipherLen := cipherLen,
          nonce := jsSlice buffer nonceStart (nonceStart + 12),
          tag := jsSlice buffer (nonceStart + 12) (nonceStart + 28),
          ciphertext := jsSlice buffer (nonceStart + 28) (nonceStart + 28 + cipherLen) }

/-- Container-parsing phase of `decryptOsnpSnapshot`: minimum size check,
    magic check (the UTF-8 decode of the first four bytes equals "OSNP"
    exactly when the bytes are the ASCII magic), then the msgpack header
    decode at offset 9 with fallback to offset 8 when the first attempt
    throws, then the binary layout reads. Everything here runs before any
    cryptographic operation. -/
def decryptOsnpParse (buffer : List Nat) : Except OsnpError OsnpParsed :=
  if buffer.length < 32 then .error .tooSmall
  else if buffer.take 4 ≠ osnpMagic then .error .badMagic
  else
    match decodeMsgpack buffer 9 with
    | .ok (header, afterHeader) => decryptOsnpParseTail buffer 9 header afterHeader
    | .error _ =>
      match decodeMsgpack buffer 8 with
      | .ok (header, afterHeader) => decryptOsnpParseTail buffer 8 header afterHeader
      | .error e => .error (.headerDecode e)

/-- Crypto-engine primitive invocations recorded by the decrypt models, in
    call order. -/
inductive CryptoCall where
  | rsaUnwrap (wrapped : List Nat)
  | aesGcmDecrypt (key nonce cipherWithTag : List Nat)
  | gunzip (input : List Nat)
deriving DecidableEq, Repr

/-- The wrappedKey header entry as bytes: `crypto.subtle.decrypt` accepts
    only a BufferSource, so any non-buffer value raises a TypeError. -/
def wrappedKeyBin (h : MVal) : Option (List Nat) :=
  match h with
  | .map entries =>
    match mapLookupStr entries wrappedKeyBytes with
    | some (.bin bs) => some bs
    | _ => none
  | _ => none

/-- `header.compression === 'gzip'`: true exactly when the decoded
    compression entry is the string "gzip". -/
def osnpCompressionIsGzip (h : MVal) : Bool :=
  match h with
  | .map entries =>
    match mapLookupStr entries compressionBytes with
    | some (.str s) => decide (s = gzipBytes)
    | _ => false
  | _ => false

/-- `decryptOsnpSnapshot` with the Web Crypto primitives as oracles: parse
    the container, unwrap the content key with RSA-OAEP, AES-GCM-decrypt
    `ciphertext ‖ tag` under the nonce (tag length 128), and decompress only
    when the header's compression entry is the string 'gzip'. The result is
    the final plaintext bytes just before the source's JSON-or-msgpack parse
    of the payload, paired with the crypto calls made, in order. -/
def decryptOsnpSnapshot
    (rsa : List Nat → Except String (List Nat))
    (aes : List Nat → List Nat → List Nat → Except String (List Nat))
    (gz : List Nat → Except String (List Nat))
    (buffer : List Nat) : Except OsnpError (List Nat) × List CryptoCall :=
  match decryptOsnpParse buffer with
  | .error e => (.error e, [])
  | .ok r =>
    match wrappedKeyBin r.header with
    | none => (.error .wrappedKeyNotBytes, [])
    | some wk =>
      match rsa wk with
      | .error m => (.error (.cryptoFailure m), [.rsaUnwrap wk])
      | .ok contentKey =>
        let cipherWithTag := r.ciphertext ++ r.tag
        match aes contentKey r.nonce cipherWithTag with
        | .error m => (.error (.cryptoFailure m),
            [.rsaUnwrap wk, .aesGcmDecrypt contentKey r.nonce cipherWithTag])
        | .ok plainBytes =>
          if osnpCompressionIsGzip r.header then
            match gz plainBytes with
            | .error m => (.error (.cryptoFailure m),
                [.rsaUnwrap wk, .aesGcmDecrypt contentKey r.nonce cipherWithTag,
                 .gunzip plainBytes])
            | .ok finalBytes => (.ok finalBytes,
                [.rsaUnwrap wk, .aesGcmDecrypt contentKey r.nonce cipherWithTag,
                 .gunzip plainBytes])
          else
            (.ok plainBytes,
             [.rsaUnwrap wk, .aesGcmDecrypt contentKey r.nonce cipherWithTag])

/-- JSON envelope `enc` object consumed by `decryptJsonSnapshot`. Fields hold
    the base64-decoded bytes; `none` models a missing field and `[]` the
    empty string (base64 decoding is a bijection sending "" to the empty
    buffer; both are falsy and rejected by the validation). -/
structure EncJson where
  wrappedKey : Option (List Nat) := none
  ciphertext : Option (List Nat) := none
  nonce : Option (List Nat) := none
  tag : Option (List Nat) := none
  compression : Option String := none
deriving DecidableEq, Repr

/-- JS falsiness of an optional base64 string field. -/
def encFieldMissing : Option (List Nat) → Bool
  | none => true
  | some bs => bs.isEmpty

/-- `decryptJsonSnapshot` with the Web Crypto primitives as oracles: validate
    the encryption fields, unwrap the content key with RSA-OAEP, AES-GCM
    decrypt `ciphertext ‖ tag` under the nonce (tag length 128), and
    decompress only when `enc.compression === 'gzip'`. The result is the
    final plaintext bytes just before the source's JSON.parse, paired with
    the crypto calls made, in order. `enc = none` models a payload without an
    `enc` object. -/
def decryptJsonSnapshot
    (rsa : List Nat → Except String (List Nat))
    (aes : List Nat → List Nat → List Nat → Except String (List Nat))
    (gz : List Nat → Except String (List Nat))
    (enc : Option EncJson) : Except String (List Nat) × List CryptoCall :=
  match enc with
  | none => (.error "Invalid snapshot format: missing encryption fields", [])
  | some e =>
    if encFieldMissing e.wrappedKey || encFieldMissing e.ciphertext ||
        encFieldMissing e.nonce || encFieldMissing e.tag then
      (.error "Invalid snapshot format: missing encryption fields", [])
    else
      let wrappedKeyBytesDecoded := e.wrappedKey.getD []
      match rsa wrappedKeyBytesDecoded with
      | .error m => (.error m, [.rsaUnwrap wrappedKeyBytesDecoded])
      | .ok contentKey =>
        let cipherWithTag := e.ciphertext.getD [] ++ e.tag.getD []
        match aes contentKey (e.nonce.getD []) cipherWithTag with
        | .error m => (.error m,
            [.rsaUnwrap wrappedKeyBytesDecoded,
             .aesGcmDecrypt contentKey (e.nonce.getD []) cipherWithTag])
        | .ok plainBytes =>
          if e.compression = some "gzip" then
            match gz plainBytes with
            | .error m => (.error m,
                [.rsaUnwrap wrappedKeyBytesDecoded,
                 .aesGcmDecrypt contentKey (e.nonce.getD []) cipherWithTag,
                 .gunzip plainBytes])
            | .ok finalBytes => (.ok finalBytes,
                [.rsaUnwrap wrappedKeyBytesDecoded,
                 .aesGcmDecrypt contentKey (e.nonce.getD []) cipherWithTag,
                 .gunzip plainBytes])
          else
            (.ok plainBytes,
             [.rsaUnwrap wrappedKeyBytesDecoded,
              .aesGcmDecrypt contentKey (e.nonce.getD []) cipherWithTag])

/-- Post-AES decompression step of the inline full-worker decrypt placeholder
    (`createDecryptFunctions` in decrypt-snapshot-streaming-full-worker.ts):
    that code path has no compression flag at all and always sniffs the
    two-byte gzip magic on the decrypted bytes. -/
def fullWorkerDecompressStep (gz : List Nat → List Nat)
    (decryptedData : List Nat) : List Nat :=
  if decryptedData.get? 0 = some 0x1f ∧ decryptedData.get? 1 = some 0x8b then
    gz decryptedData
  else decryptedData

/-- Length of a slice that ends inside the buffer. -/
theorem jsSlice_length (buffer : List Nat) (start stop : Nat)
    (h : stop ≤ buffer.length) :
    (jsSlice buffer start stop).length = stop - start := by
  unfold jsSlice
  rw [List.length_take, List.length_drop]
  omega

/-- Inversion of the OSNP parse tail: a successful parse records exactly the
    decoded header, the big-endian cipher length at `afterHeader`, and the
    nonce/tag/ciphertext slices at their fixed offsets. -/
theorem osnp_tail_inv (buffer : List Nat) (ho : Nat) (header : MVal)
    (afterHeader : Nat) (r : OsnpParsed)
    (h : decryptOsnpParseTail buffer ho header afterHeader = .ok r) :
    r.headerOffset = ho ∧ r.header = header ∧ r.afterHeader = afterHeader ∧
    r.cipherLen = beBytesAt buffer afterHeader 4 ∧
    r.nonce = jsSlice buffer (afterHeader + 4) (afterHeader + 16) ∧
    r.tag = jsSlice buffer (afterHeader + 16) (afterHeader + 32) ∧
    r.ciphertext = jsSlice buffer (afterHeader + 32)
      (afterHeader + 32 + r.cipherLen) := by
  unfold decryptOsnpParseTail at h
  split at h
  · simp at h
  · split at h
    · simp at h
    · injection h with h2
      subst h2
      exact ⟨rfl, rfl, rfl, rfl, rfl, rfl, rfl⟩

/-- C3: OSNP decoding fails closed — a buffer below the 32-byte minimum, a
    first-4-bytes mismatch with the ASCII magic "OSNP", or a header that
    fails to decode at both offset 9 and the fallback offset 8, each yield a
    parse error, and a failed parse performs no cryptographic operation at
    all. Every accepted buffer was read as: header at offset 9 (or at 8,
    exactly when offset 9 failed), then the 4-byte big-endian cipher length
    at the end of the header, then the 12-byte nonce, the 16-byte
    authentication tag, and the ciphertext of the declared length, in that
    order (the stated lengths are exact whenever the buffer is long enough;
    the source's `slice` clamps at the buffer end). -/
theorem c3_osnp_contract :
    (∀ buffer : List Nat, buffer.length < 32 →
        decryptOsnpParse buffer = .error .tooSmall) ∧
    (∀ buffer : List Nat, buffer.take 4 ≠ osnpMagic →
        ∃ e, decryptOsnpParse buffer = .error e) ∧
    (∀ buffer : List Nat,
        (∃ e9, decodeMsgpack buffer 9 = .error e9) →
        (∃ e8, decodeMsgpack buffer 8 = .error e8) →
        ∃ e, decryptOsnpParse buffer = .error e) ∧
    (∀ (buffer : List Nat) (e : OsnpError)
        (rsa : List Nat → Except String (List Nat))
        (aes : List Nat → List Nat → List Nat → Except String (List Nat))
        (gz : List Nat → Except String (List Nat)),
        decryptOsnpParse buffer = .error e →
        decryptOsnpSnapshot rsa aes gz buffer = (.error e, [])) ∧
    (∀ (buffer : List Nat) (r : OsnpParsed), decryptOsnpParse buffer = .ok r →
        ((r.headerOffset = 9 ∧ decodeMsgpack buffer 9 = .ok (r.header, r.afterHeader)) ∨
         (r.headerOffset = 8 ∧ (∃ e9, decodeMsgpack buffer 9 = .error e9) ∧
            decodeMsgpack buffer 8 = .ok (r.header, r.afterHeader))) ∧
        r.cipherLen = beBytesAt buffer r.afterHeader 4 ∧
        r.nonce = jsSlice buffer (r.afterHeader + 4) (r.afterHeader + 16) ∧
        r.tag = jsSlice buffer (r.afterHeader + 16) (r.afterHeader + 32) ∧
        r.ciphertext = jsSlice buffer (r.afterHeader + 32)
          (r.afterHeader + 32 + r.cipherLen) ∧
        (r.afterHeader + 32 + r.cipherLen ≤ buffer.length →
          r.nonce.length = 12 ∧ r.tag.length = 16 ∧
          r.ciphertext.length = r.cipherLen)) := by
  refine ⟨?_, ?_, ?_, ?_, ?_⟩
  · intro b h
    unfold decryptOsnpParse
    rw [if_pos h]
  · intro b h
    by_cases hl : b.length < 32
    · exact ⟨.tooSmall, by unfold decryptOsnpParse; rw [if_pos hl]⟩
    · refine ⟨.badMagic, ?_⟩
      unfold decryptOsnpParse
      rw [if_neg hl, if_pos h]
  · intro b h9x h8x
    obtain ⟨e9, h9⟩ := h9x
    obtain ⟨e8, h8⟩ := h8x
    by_cases hl : b.length < 32
    · exact ⟨.tooSmall, by unfold decryptOsnpParse; rw [if_pos hl]⟩
    · by_cases hm : b.take 4 ≠ osnpMagic
      · exact ⟨.badMagic, by unfold decryptOsnpParse; rw [if_neg hl, if_pos hm]⟩
      · refine ⟨.headerDecode e8, ?_⟩
        unfold decryptOsnpParse
        rw [if_neg hl, if_neg hm]
        simp only [h9, h8]
  · intro b e rsa aes gz h
    unfold decryptOsnpSnapshot
    simp only [h]
  · intro b r h
    unfold decryptOsnpParse at h
    by_cases hl : b.length < 32
    · rw [if_pos hl] at h
      exact absurd h (by simp)
    · rw [if_neg hl] at h
      by_cases hm : b.take 4 ≠ osnpMagic
      · rw [if_pos hm] at h
        exact absurd h (by simp)
      · rw [if_neg hm] at h
        cases h9 : decodeMsgpack b 9 with
        | ok pr =>
          obtain ⟨header, afterHeader⟩ := pr
          simp only [h9] at h
          obtain ⟨hh0, hh1, hh2, hc, hn, ht, hct⟩ :=
            osnp_tail_inv b 9 header afterHeader r h
          subst hh1
          subst hh2
          refine ⟨Or.inl ⟨hh0, rfl⟩, hc, hn, ht, hct, ?_⟩
          intro hlen
          refine ⟨?_, ?_, ?_⟩
          · rw [hn, jsSlice_length b _ _ (by omega)]
            omega
          · rw [ht, jsSlice_length b _ _ (by omega)]
            omega
          · rw [hct, jsSlice_length b _ _ (by omega)]
            omega
        | error e9 =>
          cases h8 : decodeMsgpack b 8 with
          | ok pr =>
            obtain ⟨header, afterHeader⟩ := pr
            simp only [h9, h8] at h
            obtain ⟨hh0, hh1, hh2, hc, hn, ht, hct⟩ :=
              osnp_tail_inv b 8 header afterHeader r h
            subst hh1
            subst hh2
            refine ⟨Or.inr ⟨hh0, ⟨e9, rfl⟩, rfl⟩, hc, hn, ht, hct, ?_⟩
            intro hlen
            refine ⟨?_, ?_, ?_⟩
            · rw [hn, jsSlice_length b _ _ (by omega)]
              omega
            · rw [ht, jsSlice_length b _ _ (by omega)]
              omega
            · rw [hct, jsSlice_length b _ _ (by omega)]
              omega
          | error e8 =>
            simp only [h9, h8] at h
            exact absurd h (by simp)

/-- Concrete well-formed OSNP container: magic, 5 filler bytes, a one-entry
    msgpack header at offset 9 (fixmap with a bin8 wrappedKey, ending at
    offset 24), cipher length 2, a 12-byte nonce, a 16-byte tag, and 2
    ciphertext bytes. -/
def demoOsnpBuffer : List Nat :=
  [0x4f, 0x53, 0x4e, 0x50, 0, 0, 0, 0, 0,
   0x81, 0xaa, 119, 114, 97, 112, 112, 101, 100, 75, 101, 121,
   0xc4, 0x01, 0x01,
   0, 0, 0, 2,
   1, 1, 1, 1, 1, 1, 1, 1, 1, 1, 1, 1,
   2, 2, 2, 2, 2, 2, 2, 2, 2, 2, 2, 2, 2, 2, 2, 2,
   3, 3]

/-- Parse result of `demoOsnpBuffer`. -/
def demoOsnpParsed : OsnpParsed :=
  { headerOffset := 9,
    header := .map [(.str wrappedKeyBytes, .bin [1])],
    afterHeader := 24, cipherLen := 2,
    nonce := [1, 1, 1, 1, 1, 1, 1, 1, 1, 1, 1, 1],
    tag := [2, 2, 2, 2, 2, 2, 2, 2, 2, 2, 2, 2, 2, 2, 2, 2],
    ciphertext := [3, 3] }

/-- Concrete buffer with a valid magic whose header bytes (0xc1, the one tag
    without a decoder branch) fail to decode at offsets 9 and 8. -/
def demoBadHeaderBuffer : List Nat := osnpMagic ++ List.replicate 28 0xc1

/-- Witness for c3_osnp_contract at concrete buffers: a too-short buffer, a
    32-byte buffer without the magic, a buffer whose header fails at both
    offsets, a failed parse making zero crypto calls, and the exact component
    lengths of a well-formed container. -/
theorem c3_osnp_contract_witness :
    decryptOsnpParse [0] = .error .tooSmall ∧
    (∃ e, decryptOsnpParse (List.replicate 32 0) = .error e) ∧
    (∃ e, decryptOsnpParse demoBadHeaderBuffer = .error e) ∧
    decryptOsnpSnapshot (fun _ => .ok [0]) (fun _ _ _ => .ok [0]) (fun _ => .ok [0])
        [0] = (.error .tooSmall, []) ∧
    demoOsnpParsed.nonce.length = 12 ∧ demoOsnpParsed.tag.length = 16 ∧
    demoOsnpParsed.ciphertext.length = demoOsnpParsed.cipherLen :=
  ⟨c3_osnp_contract.1 [0] (by decide),
   c3_osnp_contract.2.1 (List.replicate 32 0) (by decide),
   c3_osnp_contract.2.2.1 demoBadHeaderBuffer
     ⟨.unsupported 9 (some 0xc1), by rfl⟩ ⟨.unsupported 8 (some 0xc1), by rfl⟩,
   c3_osnp_contract.2.2.2.1 [0] .tooSmall _ _ _ (c3_osnp_contract.1 [0] (by decide)),
   (c3_osnp_contract.2.2.2.2 demoOsnpBuffer demoOsnpParsed (by rfl)).2.2.2.2.2
     (by decide)⟩

/-- C4 counterexample: a JSON envelope without a compression flag whose
    decrypted bytes begin with the two-byte gzip magic 0x1f 0x8b is not
    decompressed by `decryptJsonSnapshot` — the run returns the raw plaintext
    and makes no gunzip call, contradicting the claimed sniffing of the gzip
    magic when no explicit flag is present. -/
theorem c4_no_sniffing_counterexample :
    (decryptJsonSnapshot (fun _ => .ok [9]) (fun _ _ _ => .ok [0x1f, 0x8b, 0])
        (fun _ => .ok [7])
        (some { wrappedKey := some [1], ciphertext := some [2],
                nonce := some [3], tag := some [4], compression := none }))
      = (.ok [0x1f, 0x8b, 0],
         [CryptoCall.rsaUnwrap [1],
          CryptoCall.aesGcmDecrypt [9] [3] [2, 4]]) ∧
    CryptoCall.gunzip [0x1f, 0x8b, 0] ∉
      (decryptJsonSnapshot (fun _ => .ok [9]) (fun _ _ _ => .ok [0x1f, 0x8b, 0])
        (fun _ => .ok [7])
        (some { wrappedKey := some [1], ciphertext := some [2],
                nonce := some [3], tag := some [4], compression := none })).2 := by
  constructor
  · rfl
  · decide

/-- C4 (amended): both decryption engines decompress exactly when the
    envelope's explicit compression field equals 'gzip' — a gunzip call
    implies the flag was set (for JSON envelopes and OSNP headers alike), and
    for both engines a successful decryption with the flag set always
    decompresses. No gzip magic sniffing happens in
    `decryptJsonSnapshot`/`decryptOsnpSnapshot`; the two-byte magic sniff
    exists only in the inline full-worker decrypt placeholder, which
    conversely has no flag and always sniffs. -/
theorem c4_decompression_flag_only :
    (∀ (rsa : List Nat → Except String (List Nat))
       (aes : List Nat → List Nat → List Nat → Except String (List Nat))
       (gz : List Nat → Except String (List Nat))
       (enc : Option EncJson) (plain : List Nat),
        CryptoCall.gunzip plain ∈ (decryptJsonSnapshot rsa aes gz enc).2 →
        ∃ e, enc = some e ∧ e.compression = some "gzip") ∧
    (∀ (rsa : List Nat → Except String (List Nat))
       (aes : List Nat → List Nat → List Nat → Except String (List Nat))
       (gz : List Nat → Except String (List Nat))
       (buffer plain : List Nat),
        CryptoCall.gunzip plain ∈ (decryptOsnpSnapshot rsa aes gz buffer).2 →
        ∃ r, decryptOsnpParse buffer = .ok r ∧
          osnpCompressionIsGzip r.header = true) ∧
    (∀ (rsa : List Nat → Except String (List Nat))
       (aes : List Nat → List Nat → List Nat → Except String (List Nat))
       (gz : List Nat → Except String (List Nat))
       (e : EncJson) (contentKey plain : List Nat),
        encFieldMissing e.wrappedKey = false →
        encFieldMissing e.ciphertext = false →
        encFieldMissing e.nonce = false →
        encFieldMissing e.tag = false →
        rsa (e.wrappedKey.getD []) = .ok contentKey →
        aes contentKey (e.nonce.getD []) (e.ciphertext.getD [] ++ e.tag.getD [])
          = .ok plain →
        e.compression = some "gzip" →
        CryptoCall.gunzip plain ∈ (decryptJsonSnapshot rsa aes gz (some e)).2) ∧
    (∀ (gz : List Nat → List Nat) (plain : List Nat),
        plain.get? 0 = some 0x1f → plain.get? 1 = some 0x8b →
        fullWorkerDecompressStep gz plain = gz plain) ∧
    (∀ (gz : List Nat → List Nat) (plain : List Nat),
        ¬(plain.get? 0 = some 0x1f ∧ plain.get? 1 = some 0x8b) →
        fullWorkerDecompressStep gz plain = plain) ∧
    (∀ (rsa : List Nat → Except String (List Nat))
       (aes : List Nat → List Nat → List Nat → Except String (List Nat))
       (gz : List Nat → Except String (List Nat))
       (buffer : List Nat) (r : OsnpParsed) (wk contentKey plain : List Nat),
        decryptOsnpParse buffer = .ok r →
        osnpCompressionIsGzip r.header = true →
        wrappedKeyBin r.header = some wk →
        rsa wk = .ok contentKey →
        aes contentKey r.nonce (r.ciphertext ++ r.tag) = .ok plain →
        CryptoCall.gunzip plain ∈ (decryptOsnpSnapshot rsa aes gz buffer).2) := by
  refine ⟨?_, ?_, ?_, ?_, ?_, ?_⟩
  · intro rsa aes gz enc plain h
    cases enc with
    | none => simp [decryptJsonSnapshot] at h
    | some e =>
      simp only [decryptJsonSnapshot] at h
      split at h
      · simp at h
      · split at h
        · simp at h
        · split at h
          · simp at h
          · split at h
            next hcomp => exact ⟨e, rfl, hcomp⟩
            next hcomp => simp at h
  · intro rsa aes gz buffer plain h
    unfold decryptOsnpSnapshot at h
    cases hp : decryptOsnpParse buffer with
    | error e =>
      simp only [hp] at h
      simp at h
    | ok r =>
      simp only [hp] at h
      split at h
      · simp at h
      · split at h
        · simp at h
        · split at h
          · simp at h
          · split at h
            next hcomp => exact ⟨r, rfl, hcomp⟩
            next hcomp => simp at h
  · intro rsa aes gz e ck pb h1 h2 h3 h4 hr ha hcomp
    simp only [decryptJsonSnapshot]
    rw [if_neg (by simp [h1, h2, h3, h4])]
    simp only [hr, ha]
    rw [if_pos hcomp]
    cases gz pb <;> simp
  · intro gz plain h1 h2
    unfold fullWorkerDecompressStep
    rw [if_pos ⟨h1, h2⟩]
  · intro gz plain h
    unfold fullWorkerDecompressStep
    rw [if_neg h]
  · intro rsa aes gz buffer r wk ck pb hp hflag hwk hr ha
    unfold decryptOsnpSnapshot
    simp only [hp, hwk, hr, ha]
    rw [if_pos hflag]
    cases gz pb <;> simp

/-- Concrete well-formed OSNP container whose two-entry msgpack header at
    offset 9 carries a bin8 wrappedKey and compression := "gzip" (ending at
    offset 41), followed by cipher length 2, a 12-byte nonce, a 16-byte tag,
    and 2 ciphertext bytes. -/
def demoGzipOsnpBuffer : List Nat :=
  [0x4f, 0x53, 0x4e, 0x50, 0, 0, 0, 0, 0,
   0x82, 0xaa, 119, 114, 97, 112, 112, 101, 100, 75, 101, 121,
   0xc4, 0x01, 0x01,
   0xab, 99, 111, 109, 112, 114, 101, 115, 115, 105, 111, 110,
   0xa4, 103, 122, 105, 112,
   0, 0, 0, 2,
   1, 1, 1, 1, 1, 1, 1, 1, 1, 1, 1, 1,
   2, 2, 2, 2, 2, 2, 2, 2, 2, 2, 2, 2, 2, 2, 2, 2,
   3, 3]

/-- Parse result of `demoGzipOsnpBuffer`. -/
def demoGzipOsnpParsed : OsnpParsed :=
  { headerOffset := 9,
    header := .map [(.str wrappedKeyBytes, .bin [1]),
                    (.str compressionBytes, .str gzipBytes)],
    afterHeader := 41, cipherLen := 2,
    nonce := [1, 1, 1, 1, 1, 1, 1, 1, 1, 1, 1, 1],
    tag := [2, 2, 2, 2, 2, 2, 2, 2, 2, 2, 2, 2, 2, 2, 2, 2],
    ciphertext := [3, 3] }

/-- Witness for c4_decompression_flag_only: with the flag set the plaintext
    is decompressed by both engines (for the OSNP engine at a concrete
    container whose header carries compression := "gzip"), and the
    full-worker placeholder decompresses exactly on the magic. -/
theorem c4_decompression_flag_only_witness :
    CryptoCall.gunzip [5] ∈
      (decryptJsonSnapshot (fun _ => .ok [9]) (fun _ _ _ => .ok [5])
        (fun _ => .ok [7])
        (some { wrappedKey := some [1], ciphertext := some [2],
                nonce := some [3], tag := some [4],
                compression := some "gzip" })).2 ∧
    fullWorkerDecompressStep (fun _ => [0]) [0x1f, 0x8b] = [0] ∧
    fullWorkerDecompressStep (fun _ => [0]) [9, 9] = [9, 9] ∧
    CryptoCall.gunzip [5] ∈
      (decryptOsnpSnapshot (fun _ => .ok [9]) (fun _ _ _ => .ok [5])
        (fun _ => .ok [7]) demoGzipOsnpBuffer).2 :=
  ⟨c4_decompression_flag_only.2.2.1 _ _ _
      { wrappedKey := some [1], ciphertext := some [2],
        nonce := some [3], tag := some [4], compression := some "gzip" }
      [9] [5] rfl rfl rfl rfl rfl rfl rfl,
   c4_decompression_flag_only.2.2.2.1 _ [0x1f, 0x8b] rfl rfl,
   c4_decompression_flag_only.2.2.2.2.1 _ [9, 9] (by decide),
   c4_decompression_flag_only.2.2.2.2.2 (fun _ => .ok [9]) (fun _ _ _ => .ok [5])
      (fun _ => .ok [7]) demoGzipOsnpBuffer demoGzipOsnpParsed [1] [9] [5]
      (by rfl) (by rfl) (by rfl) rfl rfl⟩

/-- MAX_RETRIES of the inline worker code. -/
def MAX_RETRIES : Nat := 3

/-- BASE_BACKOFF_MS of the inline worker code. -/
def BASE_BACKOFF_MS : ℚ := 150

/-- Outcome of `saveMessagesBatchWithRetry`: the final result, the attempt
    numbers tried (in order), and the backoff delays slept between attempts
    (each `BASE_BACKOFF_MS * attempt + jitter attempt`, the jitter term
    modelling `Math.random() * 200`). -/
structure RetryResult where
  result : Except String Nat
  attempts : List Nat
  delays : List ℚ
deriving Repr

/-- The retry loop `for (attempt = 1; attempt <= MAX_RETRIES; attempt++)`:
    `attemptOutcome n` is the result of `saveMessagesBatch` on the n-th try;
    `remaining` counts the attempts still allowed (the loop enters with
    MAX_RETRIES, so `remaining + 1 = 1` is `attempt === MAX_RETRIES`, where
    the error is rethrown instead of sleeping and retrying). -/
def retryLoop (attemptOutcome : Nat → Except String Nat) (jitter : Nat → ℚ) :
    Nat → Nat → RetryResult
  | _, 0 => { result := .error "retry loop exhausted", attempts := [], delays := [] }
  | attempt, remaining + 1 =>
    match attemptOutcome attempt with
    | .ok n => { result := .ok n, attempts := [attempt], delays := [] }
    | .error e =>
      if remaining = 0 then
        { result := .error e, attempts := [attempt], delays := [] }
      else
        let rest := retryLoop attemptOutcome jitter (attempt + 1) remaining
        { result := rest.result, attempts := attempt :: rest.attempts,
          delays := (BASE_BACKOFF_MS * (attempt : ℚ) + jitter attempt) :: rest.delays }

/-- `saveMessagesBatchWithRetry`: up to MAX_RETRIES attempts starting at 1. -/
def saveMessagesBatchWithRetry (attemptOutcome : Nat → Except String Nat)
    (jitter : Nat → ℚ) : RetryResult :=
  retryLoop attemptOutcome jitter 1 MAX_RETRIES

/-- The retry loop never makes more attempts than allowed. -/
theorem retryLoop_attempts_le (attemptOutcome : Nat → Except String Nat)
    (jitter : Nat → ℚ) :
    ∀ (remaining attempt : Nat),
      (retryLoop attemptOutcome jitter attempt remaining).attempts.length ≤ remaining := by
  intro remaining
  induction remaining with
  | zero => intro attempt; simp [retryLoop]
  | succ r ih =>
    intro attempt
    unfold retryLoop
    cases attemptOutcome attempt with
    | ok n => simp
    | error e =>
      by_cases hr : r = 0
      · simp [hr]
      · simp only [hr, if_false]
        simpa using ih (attempt + 1)

/-- State of the WorkerPool dispatcher: available worker indices (FIFO, via
    `availableWorkers.push`/`shift`), queued chunk indices (FIFO task queue),
    chunks posted to a worker and not yet reported back (paired with their
    worker index), the dispatch log, and the chunk indices whose worker
    reported ERROR. -/
structure PoolState where
  available : List Nat
  queue : List Nat
  running : List (Nat × Nat)
  dispatched : List Nat
  errors : List Nat
deriving DecidableEq, Repr

/-- `processNextTask`: if a task is queued and a worker is available, shift
    both (FIFO) and post the chunk to the worker. -/
def processNextTask (s : PoolState) : PoolState :=
  match s.queue, s.available with
  | c :: cs, w :: ws =>
    { s with queue := cs, available := ws, running := s.running ++ [(w, c)],
             dispatched := s.dispatched ++ [c] }
  | _, _ => s

/-- `processChunk`: push the task onto the queue and try to dispatch (the
    source resolves the submission promise on dispatch, not on completion). -/
def submitChunkToPool (s : PoolState) (c : Nat) : PoolState :=
  processNextTask { s with queue := s.queue ++ [c] }

/-- Submitting a list of chunks in order (`chunks.map(processChunk)`). -/
def submitAllChunks (s : PoolState) (cs : List Nat) : PoolState :=
  cs.foldl submitChunkToPool s

/-- `handleWorkerMessage` for a COMPLETE or ERROR message from the running
    entry at position `i`: in both cases the worker is pushed back onto the
    available list and the next task is dispatched (the pool keeps going
    after an error); an ERROR additionally surfaces the failing chunk's index
    in the error log — and only that chunk. -/
def reportOutcome (s : PoolState) (i : Nat) (isError : Nat → Bool) : PoolState :=
  match s.running.get? i with
  | none => s
  | some (w, c) =>
    processNextTask
      { s with running := s.running.eraseIdx i,
               available := s.available ++ [w],
               errors := if isError c then s.errors ++ [c] else s.errors }

/-- Drain loop: while chunks are outstanding, some running worker (chosen by
    the scheduler, modelling arbitrary completion order) reports its outcome.
    The fuel makes the recursion structural; queue + running shrinks by one
    per report, so fuel equal to that sum drains the pool (see
    c7_retry_and_pool). -/
def drainPool (sched : Nat → Nat) (isError : Nat → Bool) :
    Nat → PoolState → PoolState
  | 0, s => s
  | fuel + 1, s =>
    if s.running.length = 0 then s
    else drainPool sched isError fuel
      (reportOutcome s (sched fuel % s.running.length) isError)

/-- Pool state right after `initializeWorkers`: workers 0..workerCount-1
    available, nothing queued, running, dispatched or errored. -/
def initialPoolState (workerCount : Nat) : PoolState :=
  { available := List.range workerCount, queue := [], running := [],
    dispatched := [], errors := [] }

/-- The whole pipeline for one snapshot's chunks: submit every chunk, then
    let workers report back (in the order chosen by `sched`) until the pool
    is drained. -/
def runPool (W : Nat) (chunks : List Nat) (sched : Nat → Nat)
    (isError : Nat → Bool) : PoolState :=
  let s0 := submitAllChunks (initialPoolState W) chunks
  drainPool sched isError (s0.queue.length + s0.running.length) s0

/-- Chunks still owed a COMPLETE/ERROR report: running plus queued. -/
def PoolState.pending (s : PoolState) : List Nat :=
  s.running.map Prod.snd ++ s.queue

theorem processNextTask_workers (s : PoolState) :
    (processNextTask s).available.length + (processNextTask s).running.length
      = s.available.length + s.running.length := by
  unfold processNextTask
  cases hq : s.queue <;> cases ha : s.available <;> (simp [hq, ha]; try omega)

theorem processNextTask_measure (s : PoolState) :
    (processNextTask s).queue.length + (processNextTask s).running.length
      = s.queue.length + s.running.length := by
  unfold processNextTask
  cases hq : s.queue <;> cases ha : s.available <;> (simp [hq, ha]; try omega)

theorem processNextTask_dispatched_queue (s : PoolState) :
    (processNextTask s).dispatched ++ (processNextTask s).queue
      = s.dispatched ++ s.queue := by
  unfold processNextTask
  cases hq : s.queue <;> cases ha : s.available <;> simp [hq, ha]

theorem processNextTask_pending (s : PoolState) :
    (processNextTask s).pending = s.pending := by
  unfold processNextTask PoolState.pending
  cases hq : s.queue <;> cases ha : s.available <;> simp [hq, ha]

theorem processNextTask_errors (s : PoolState) :
    (processNextTask s).errors = s.errors := by
  unfold processNextTask
  cases hq : s.queue <;> cases ha : s.available <;> simp [hq, ha]

/-- Each call to processNextTask receives a state where at most one task is
    queued or at most one worker is idle; in either case the one-in-one-out
    invariant (a non-empty queue means no idle worker) comes out. -/
theorem processNextTask_I1 (s : PoolState)
    (h : s.queue.length ≤ 1 ∨ s.available.length ≤ 1) :
    (processNextTask s).queue ≠ [] → (processNextTask s).available = [] := by
  unfold processNextTask
  cases hq : s.queue with
  | nil =>
    cases ha : s.available with
    | nil => intro _; simp [ha]
    | cons w ws => intro hne; simp at hne; exact absurd hq hne
  | cons c cs =>
    cases ha : s.available with
    | nil => intro _; simp [ha]
    | cons w ws =>
      intro hne
      simp at hne
      rcases h with h | h
      · rw [hq] at h
        simp at h
        subst h
        simp at hne
      · rw [ha] at h
        simp at h
        simp [h]

theorem submitChunkToPool_workers (s : PoolState) (c : Nat) :
    (submitChunkToPool s c).available.length + (submitChunkToPool s c).running.length
      = s.available.length + s.running.length := by
  unfold submitChunkToPool
  rw [processNextTask_workers]

theorem submitChunkToPool_dispatched_queue (s : PoolState) (c : Nat) :
    (submitChunkToPool s c).dispatched ++ (submitChunkToPool s c).queue
      = s.dispatched ++ s.queue ++ [c] := by
  unfold submitChunkToPool
  rw [processNextTask_dispatched_queue]
  simp

theorem submitChunkToPool_pending (s : PoolState) (c : Nat) :
    (submitChunkToPool s c).pending = s.pending ++ [c] := by
  unfold submitChunkToPool
  rw [processNextTask_pending]
  simp [PoolState.pending]

theorem submitChunkToPool_errors (s : PoolState) (c : Nat) :
    (submitChunkToPool s c).errors = s.errors := by
  unfold submitChunkToPool
  rw [processNextTask_errors]

theorem submitChunkToPool_I1 (s : PoolState) (c : Nat)
    (h : s.queue ≠ [] → s.available = []) :
    (submitChunkToPool s c).queue ≠ [] → (submitChunkToPool s c).available = [] := by
  unfold submitChunkToPool
  apply processNextTask_I1
  cases hq : s.queue with
  | nil => left; simp
  | cons q qs =>
    right
    rw [h (by simp [hq])]
    simp

theorem submitAllChunks_workers (cs : List Nat) :
    ∀ s : PoolState,
      (submitAllChunks s cs).available.length + (submitAllChunks s cs).running.length
        = s.available.length + s.running.length := by
  induction cs with
  | nil => intro s; rfl
  | cons c cs ih =>
    intro s
    show (submitAllChunks (submitChunkToPool s c) cs).available.length
        + (submitAllChunks (submitChunkToPool s c) cs).running.length = _
    rw [ih, submitChunkToPool_workers]

theorem submitAllChunks_dispatched_queue (cs : List Nat) :
    ∀ s : PoolState,
      (submitAllChunks s cs).dispatched ++ (submitAllChunks s cs).queue
        = s.dispatched ++ s.queue ++ cs := by
  induction cs with
  | nil => intro s; simp [submitAllChunks]
  | cons c cs ih =>
    intro s
    show (submitAllChunks (submitChunkToPool s c) cs).dispatched
        ++ (submitAllChunks (submitChunkToPool s c) cs).queue = _
    rw [ih, submitChunkToPool_dispatched_queue]
    simp

theorem submitAllChunks_pending (cs : List Nat) :
    ∀ s : PoolState, (submitAllChunks s cs).pending = s.pending ++ cs := by
  induction cs with
  | nil => intro s; simp [submitAllChunks]
  | cons c cs ih =>
    intro s
    show (submitAllChunks (submitChunkToPool s c) cs).pending = _
    rw [ih, submitChunkToPool_pending]
    simp

theorem submitAllChunks_errors (cs : List Nat) :
    ∀ s : PoolState, (submitAllChunks s cs).errors = s.errors := by
  induction cs with
  | nil => intro s; rfl
  | cons c cs ih =>
    intro s
    show (submitAllChunks (submitChunkToPool s c) cs).errors = _
    rw [ih, submitChunkToPool_errors]

theorem submitAllChunks_I1 (cs : List Nat) :
    ∀ s : PoolState, (s.queue ≠ [] → s.available = []) →
      (submitAllChunks s cs).queue ≠ [] → (submitAllChunks s cs).available = [] := by
  induction cs with
  | nil => intro s h; exact h
  | cons c cs ih =>
    intro s h
    show (submitAllChunks (submitChunkToPool s c) cs).queue ≠ [] → _
    exact ih _ (submitChunkToPool_I1 s c h)

theorem reportOutcome_workers (s : PoolState) (i : Nat) (f : Nat → Bool)
    (h : i < s.running.length) :
    (reportOutcome s i f).available.length + (reportOutcome s i f).running.length
      = s.available.length + s.running.length := by
  unfold reportOutcome
  cases hg : s.running.get? i with
  | none => rfl
  | some wc =>
    obtain ⟨w, c⟩ := wc
    rw [processNextTask_workers]
    simp [List.length_eraseIdx, h]
    omega

theorem reportOutcome_measure (s : PoolState) (i : Nat) (f : Nat → Bool)
    (h : i < s.running.length) :
    (reportOutcome s i f).queue.length + (reportOutcome s i f).running.length + 1
      = s.queue.length + s.running.length := by
  unfold reportOutcome
  cases hg : s.running.get? i with
  | none =>
    exfalso
    rw [List.get?_eq_none] at hg
    omega
  | some wc =>
    obtain ⟨w, c⟩ := wc
    rw [processNextTask_measure]
    simp [List.length_eraseIdx, h]
    omega

theorem reportOutcome_dispatched_queue (s : PoolState) (i : Nat) (f : Nat → Bool) :
    (reportOutcome s i f).dispatched ++ (reportOutcome s i f).queue
      = s.dispatched ++ s.queue := by
  unfold reportOutcome
  cases hg : s.running.get? i with
  | none => rfl
  | some wc =>
    obtain ⟨w, c⟩ := wc
    rw [processNextTask_dispatched_queue]

theorem reportOutcome_pending_subset (s : PoolState) (i : Nat) (f : Nat → Bool) :
    ∀ x ∈ (reportOutcome s i f).pending, x ∈ s.pending := by
  unfold reportOutcome
  cases hg : s.running.get? i with
  | none => intro x hx; exact hx
  | some wc =>
    obtain ⟨w, c⟩ := wc
    intro x hx
    rw [processNextTask_pending] at hx
    unfold PoolState.pending at hx ⊢
    rcases List.mem_append.1 hx with hx | hx
    · refine List.mem_append.2 (Or.inl ?_)
      rcases List.mem_map.1 hx with ⟨a, ha, hsnd⟩
      exact List.mem_map.2 ⟨a, (List.eraseIdx_sublist s.running i).mem ha, hsnd⟩
    · exact List.mem_append.2 (Or.inr hx)

theorem reportOutcome_errors (s : PoolState) (i : Nat) (f : Nat → Bool) :
    ∀ x ∈ (reportOutcome s i f).errors,
      x ∈ s.errors ∨ (f x = true ∧ x ∈ s.pending) := by
  unfold reportOutcome
  cases hg : s.running.get? i with
  | none => intro x hx; exact Or.inl hx
  | some wc =>
    obtain ⟨w, c⟩ := wc
    intro x hx
    rw [processNextTask_errors] at hx
    simp at hx
    by_cases hc : f c = true
    · rw [if_pos hc] at hx
      rcases List.mem_append.1 hx with hx | hx
      · exact Or.inl hx
      · have hcx : x = c := by simpa using hx
        subst hcx
        refine Or.inr ⟨hc, ?_⟩
        have hmem : (w, x) ∈ s.running := List.get?_mem hg
        unfold PoolState.pending
        exact List.mem_append.2 (Or.inl (List.mem_map.2 ⟨(w, x), hmem, rfl⟩))
    · rw [if_neg hc] at hx
      exact Or.inl hx

theorem reportOutcome_I1 (s : PoolState) (i : Nat) (f : Nat → Bool)
    (h : s.queue ≠ [] → s.available = []) :
    (reportOutcome s i f).queue ≠ [] → (reportOutcome s i f).available = [] := by
  unfold reportOutcome
  cases hg : s.running.get? i with
  | none => exact h
  | some wc =>
    obtain ⟨w, c⟩ := wc
    apply processNextTask_I1
    cases hq : s.queue with
    | nil => left; simp
    | cons q qs =>
      right
      rw [h (by simp [hq])]
      simp

/-- Draining with fuel equal to the outstanding count empties the queue and
    the running set and dispatches exactly what was owed, as long as a
    non-empty queue implies no idle worker and there is at least one
    worker. -/
theorem drainPool_drains (sched : Nat → Nat) (isErr : Nat → Bool) :
    ∀ (fuel : Nat) (s : PoolState),
      (s.queue ≠ [] → s.available = []) →
      1 ≤ s.available.length + s.running.length →
      fuel = s.queue.length + s.running.length →
      (drainPool sched isErr fuel s).queue = [] ∧
      (drainPool sched isErr fuel s).running = [] ∧
      (drainPool sched isErr fuel s).dispatched = s.dispatched ++ s.queue := by
  intro fuel
  induction fuel with
  | zero =>
    intro s h1 hw hf
    have hq : s.queue = [] := List.eq_nil_of_length_eq_zero (by omega)
    have hr : s.running = [] := List.eq_nil_of_length_eq_zero (by omega)
    refine ⟨hq, hr, ?_⟩
    rw [hq]
    simp [drainPool]
  | succ n ih =>
    intro s h1 hw hf
    unfold drainPool
    by_cases hr : s.running.length = 0
    · exfalso
      cases hq : s.queue with
      | nil => rw [hq] at hf; simp at hf; omega
      | cons q qs =>
        have := h1 (by simp [hq])
        rw [this] at hw
        simp at hw
        omega
    · simp only [hr, if_false]
      have hlt : sched n % s.running.length < s.running.length :=
        Nat.mod_lt _ (Nat.pos_of_ne_zero hr)
      have hmeas := reportOutcome_measure s (sched n % s.running.length) isErr hlt
      have hwork := reportOutcome_workers s (sched n % s.running.length) isErr hlt
      have hdq := reportOutcome_dispatched_queue s (sched n % s.running.length) isErr
      obtain ⟨hq', hr', hd'⟩ := ih (reportOutcome s (sched n % s.running.length) isErr)
        (reportOutcome_I1 s (sched n % s.running.length) isErr h1)
        (by omega) (by omega)
      refine ⟨hq', hr', ?_⟩
      rw [hd']
      exact hdq

theorem retryLoop_error_step (o : Nat → Except String Nat) (j : Nat → ℚ)
    (a r : Nat) (e : String) (h : o a = .error e) (hr : r ≠ 0) :
    retryLoop o j a (r + 1)
      = { result := (retryLoop o j (a + 1) r).result,
          attempts := a :: (retryLoop o j (a + 1) r).attempts,
          delays := (BASE_BACKOFF_MS * (a : ℚ) + j a)
            :: (retryLoop o j (a + 1) r).delays } := by
  conv_lhs => rw [retryLoop]
  rw [h]
  simp [hr]

theorem retryLoop_error_last (o : Nat → Except String Nat) (j : Nat → ℚ)
    (a : Nat) (e : String) (h : o a = .error e) :
    retryLoop o j a 1 = { result := .error e, attempts := [a], delays := [] } := by
  conv_lhs => rw [retryLoop]
  rw [h]
  simp

theorem retryLoop_ok (o : Nat → Except String Nat) (j : Nat → ℚ)
    (a r : Nat) (n : Nat) (h : o a = .ok n) :
    retryLoop o j a (r + 1) = { result := .ok n, attempts := [a], delays := [] } := by
  conv_lhs => rw [retryLoop]
  rw [h]

/-- Every error the drained pool reports is a genuine per-chunk error on a
    chunk that was owed a report. -/
theorem drainPool_errors (sched : Nat → Nat) (isErr : Nat → Bool) (P : Nat → Prop) :
    ∀ (fuel : Nat) (s : PoolState),
      (∀ x ∈ s.errors, isErr x = true ∧ P x) →
      (∀ x ∈ s.pending, P x) →
      ∀ x ∈ (drainPool sched isErr fuel s).errors, isErr x = true ∧ P x := by
  intro fuel
  induction fuel with
  | zero => intro s he _ x hx; exact he x hx
  | succ n ih =>
    intro s he hp
    unfold drainPool
    by_cases hr : s.running.length = 0
    · simp only [hr, if_true]
      exact he
    · simp only [hr, if_false]
      apply ih
      · intro x hx
        rcases reportOutcome_errors s (sched n % s.running.length) isErr x hx with
          hx' | ⟨hfx, hpx⟩
        · exact he x hx'
        · exact ⟨hfx, hp x hpx⟩
      · intro x hx
        exact hp x (reportOutcome_pending_subset s (sched n % s.running.length) isErr x hx)

/-- C7: a transient storage failure of a chunk's batch write is retried on
    the same chunk up to the ceiling of 3 attempts, the delay slept before
    retry n+1 being the linearly increasing base backoff
    `BASE_BACKOFF_MS * n` plus the jitter term for that attempt; when all 3
    attempts fail, the final error is surfaced (attempts 1, 2, 3 were made
    and only two backoffs slept); and the pool keeps going after per-chunk
    errors: with at least one worker, draining dispatches every submitted
    chunk exactly once in submission order, empties the queue and the
    running set no matter which chunks fail, and every surfaced error names
    a chunk that actually failed and was submitted. -/
theorem c7_retry_and_pool :
    (∀ (o : Nat → Except String Nat) (j : Nat → ℚ),
        (saveMessagesBatchWithRetry o j).attempts.length ≤ MAX_RETRIES) ∧
    (∀ (o : Nat → Except String Nat) (j : Nat → ℚ) (e1 e2 e3 : String),
        o 1 = .error e1 → o 2 = .error e2 → o 3 = .error e3 →
        saveMessagesBatchWithRetry o j
          = { result := .error e3, attempts := [1, 2, 3],
              delays := [BASE_BACKOFF_MS * ((1 : Nat) : ℚ) + j 1,
                         BASE_BACKOFF_MS * ((2 : Nat) : ℚ) + j 2] }) ∧
    (∀ (W : Nat) (chunks : List Nat) (sched : Nat → Nat) (isErr : Nat → Bool),
        1 ≤ W →
        (runPool W chunks sched isErr).dispatched = chunks ∧
        (runPool W chunks sched isErr).queue = [] ∧
        (runPool W chunks sched isErr).running = [] ∧
        (∀ x ∈ (runPool W chunks sched isErr).errors,
          isErr x = true ∧ x ∈ chunks)) := by
  refine ⟨?_, ?_, ?_⟩
  · intro o j
    exact retryLoop_attempts_le o j MAX_RETRIES 1
  · intro o j e1 e2 e3 h1 h2 h3
    have s3 : retryLoop o j 3 1
        = { result := .error e3, attempts := [3], delays := [] } :=
      retryLoop_error_last o j 3 e3 h3
    have s3' : retryLoop o j (2 + 1) 1
        = { result := .error e3, attempts := [3], delays := [] } := s3
    have s2 : retryLoop o j 2 2
        = { result := .error e3, attempts := [2, 3],
            delays := [BASE_BACKOFF_MS * ((2 : Nat) : ℚ) + j 2] } := by
      have h := retryLoop_error_step o j 2 1 e2 h2 (by decide)
      rw [s3'] at h
      exact h
    have s2' : retryLoop o j (1 + 1) 2
        = { result := .error e3, attempts := [2, 3],
            delays := [BASE_BACKOFF_MS * ((2 : Nat) : ℚ) + j 2] } := s2
    have s1 : retryLoop o j 1 3
        = { result := .error e3, attempts := [1, 2, 3],
            delays := [BASE_BACKOFF_MS * ((1 : Nat) : ℚ) + j 1,
                       BASE_BACKOFF_MS * ((2 : Nat) : ℚ) + j 2] } := by
      have h := retryLoop_error_step o j 1 2 e1 h1 (by decide)
      rw [s2'] at h
      exact h
    exact s1
  · intro W chunks sched isErr hW
    simp only [runPool]
    have hI1 : (submitAllChunks (initialPoolState W) chunks).queue ≠ [] →
        (submitAllChunks (initialPoolState W) chunks).available = [] :=
      submitAllChunks_I1 chunks (initialPoolState W) (fun h => absurd rfl h)
    have hwork : (submitAllChunks (initialPoolState W) chunks).available.length
        + (submitAllChunks (initialPoolState W) chunks).running.length = W := by
      rw [submitAllChunks_workers]
      simp [initialPoolState]
    obtain ⟨hq, hr, hd⟩ := drainPool_drains sched isErr
      ((submitAllChunks (initialPoolState W) chunks).queue.length +
       (submitAllChunks (initialPoolState W) chunks).running.length)
      (submitAllChunks (initialPoolState W) chunks) hI1 (by omega) rfl
    have hdq0 : (submitAllChunks (initialPoolState W) chunks).dispatched
        ++ (submitAllChunks (initialPoolState W) chunks).queue = chunks := by
      rw [submitAllChunks_dispatched_queue]
      simp [initialPoolState]
    refine ⟨?_, hq, hr, ?_⟩
    · rw [hd, hdq0]
    · have hpend : ∀ x ∈ (submitAllChunks (initialPoolState W) chunks).pending,
          x ∈ chunks := by
        intro x hx
        rw [submitAllChunks_pending] at hx
        simpa [initialPoolState, PoolState.pending] using hx
      have herr : ∀ x ∈ (submitAllChunks (initialPoolState W) chunks).errors,
          isErr x = true ∧ x ∈ chunks := by
        intro x hx
        rw [submitAllChunks_errors] at hx
        simp [initialPoolState] at hx
      exact drainPool_errors sched isErr (fun x => x ∈ chunks) _ _ herr hpend

/-- Witness for c7_retry_and_pool: a batch write that always fails, with
    jitter n for attempt n, surfaces the error after attempts 1, 2, 3 with
    backoffs 150·1 + 1 and 150·2 + 2; and a 2-worker pool over chunks
    10..13 where chunk 11 errors still dispatches all four chunks in order
    and logs only genuine failures. -/
theorem c7_retry_and_pool_witness :
    saveMessagesBatchWithRetry (fun _ => .error "tx") (fun a => (a : ℚ))
      = { result := .error "tx", attempts := [1, 2, 3],
          delays := [BASE_BACKOFF_MS * ((1 : Nat) : ℚ) + ((1 : Nat) : ℚ),
                     BASE_BACKOFF_MS * ((2 : Nat) : ℚ) + ((2 : Nat) : ℚ)] } ∧
    (runPool 2 [10, 11, 12, 13] (fun n => n) (fun c => c == 11)).dispatched
      = [10, 11, 12, 13] ∧
    (∀ x ∈ (runPool 2 [10, 11, 12, 13] (fun n => n) (fun c => c == 11)).errors,
      (x == 11) = true ∧ x ∈ [10, 11, 12, 13]) :=
  ⟨c7_retry_and_pool.2.1 (fun _ => .error "tx") (fun a => (a : ℚ))
      "tx" "tx" "tx" rfl rfl rfl,
   (c7_retry_and_pool.2.2 2 [10, 11, 12, 13] (fun n => n) (fun c => c == 11)
      (by decide)).1,
   (c7_retry_and_pool.2.2 2 [10, 11, 12, 13] (fun n => n) (fun c => c == 11)
      (by decide)).2.2.2⟩

/-- PREFETCH_SIZE_LIMIT_MB of the bulk loader. -/
def PREFETCH_SIZE_LIMIT_MB : ℚ := 25

/-- Log entry for one `startPreparation` call: the new snapshot's estimated
    decrypted size, the `inFlightMb` counter before it started, and the
    sizes held in `activePreparations` before it started. -/
structure StartEvent where
  size : ℚ
  inFlightBefore : ℚ
  activeBefore : List ℚ
deriving DecidableEq, Repr

/-- Scheduler state of the bulk loop: sizes of the snapshots not yet
    scheduled (the `nextToSchedule` cursor over `allSnapshots`), sizes of
    the active preparations (the `activePreparations` map), and the
    `inFlightMb` counter. -/
structure BulkPrefetchState where
  pending : List ℚ
  active : List ℚ
  inFlightMb : ℚ
deriving DecidableEq, Repr

/-- `schedulePrefetch`: walk the unscheduled snapshots in order; as long as
    `inFlightMb + sizeMb <= PREFETCH_SIZE_LIMIT_MB || activePreparations.size === 0`
    start the preparation (add the size to the active set and the counter),
    otherwise break. Emits a StartEvent per `startPreparation` call. -/
def schedulePrefetch (limit : ℚ) :
    List ℚ → List ℚ → ℚ → BulkPrefetchState × List StartEvent
  | [], active, inFlight => (⟨[], active, inFlight⟩, [])
  | s :: rest, active, inFlight =>
    if inFlight + s ≤ limit ∨ active = [] then
      let r := schedulePrefetch limit rest (active ++ [s]) (inFlight + s)
      (r.1, ⟨s, inFlight, active⟩ :: r.2)
    else (⟨s :: rest, active, inFlight⟩, [])

/-- The `.finally` of a preparation: the i-th active preparation completes,
    its size leaves `inFlightMb` and `activePreparations`, and
    `schedulePrefetch()` runs again. -/
def completeOne (limit : ℚ) (s : BulkPrefetchState) (i : Nat) :
    BulkPrefetchState × List StartEvent :=
  match s.active.get? i with
  | none => (s, [])
  | some x => schedulePrefetch limit s.pending (s.active.eraseIdx i) (s.inFlightMb - x)

/-- A bulk run: the initial `schedulePrefetch()` over all snapshot sizes,
    then completions arrive in the order given (each index naming the active
    preparation that finished), collecting every StartEvent emitted. -/
def bulkRun (limit : ℚ) (sizes : List ℚ) (completions : List Nat) :
    BulkPrefetchState × List StartEvent :=
  completions.foldl
    (fun acc i =>
      let r := completeOne limit acc.1 i
      (r.1, acc.2 ++ r.2))
    (schedulePrefetch limit sizes [] 0)

theorem list_sum_eraseIdx (l : List ℚ) :
    ∀ (i : Nat) (x : ℚ), l.get? i = some x → (l.eraseIdx i).sum = l.sum - x := by
  induction l with
  | nil => intro i x h; simp at h
  | cons a as ih =>
    intro i x h
    cases i with
    | zero =>
      rw [List.get?_cons_zero] at h
      injection h with h
      subst h
      simp [List.eraseIdx]
    | succ n =>
      rw [List.get?_cons_succ] at h
      rw [List.eraseIdx_cons_succ, List.sum_cons, List.sum_cons, ih n x h]
      ring

theorem schedulePrefetch_sum (limit : ℚ) :
    ∀ (pending active : List ℚ) (inFlight : ℚ), inFlight = active.sum →
      (schedulePrefetch limit pending active inFlight).1.inFlightMb
        = (schedulePrefetch limit pending active inFlight).1.active.sum := by
  intro pending
  induction pending with
  | nil => intro active inFlight h; exact h
  | cons s rest ih =>
    intro active inFlight h
    unfold schedulePrefetch
    by_cases hg : inFlight + s ≤ limit ∨ active = []
    · rw [if_pos hg]
      exact ih (active ++ [s]) (inFlight + s) (by simp [h])
    · rw [if_neg hg]
      exact h

theorem schedulePrefetch_events (limit : ℚ) :
    ∀ (pending active : List ℚ) (inFlight : ℚ), inFlight = active.sum →
      ∀ ev ∈ (schedulePrefetch limit pending active inFlight).2,
        ev.activeBefore.sum + ev.size ≤ limit ∨ ev.activeBefore = [] := by
  intro pending
  induction pending with
  | nil => intro active inFlight _ ev hev; simp [schedulePrefetch] at hev
  | cons s rest ih =>
    intro active inFlight h ev hev
    unfold schedulePrefetch at hev
    by_cases hg : inFlight + s ≤ limit ∨ active = []
    · rw [if_pos hg] at hev
      rcases List.mem_cons.1 hev with hev | hev
      · subst hev
        rcases hg with hg | hg
        · left
          rw [← h]
          linarith
        · right
          exact hg
      · exact ih (active ++ [s]) (inFlight + s) (by simp [h]) ev hev
    · rw [if_neg hg] at hev
      simp at hev

theorem completeOne_sum (limit : ℚ) (s : BulkPrefetchState) (i : Nat)
    (h : s.inFlightMb = s.active.sum) :
    (completeOne limit s i).1.inFlightMb = (completeOne limit s i).1.active.sum := by
  unfold completeOne
  cases hg : s.active.get? i with
  | none => exact h
  | some x =>
    apply schedulePrefetch_sum
    rw [h, list_sum_eraseIdx s.active i x hg]

theorem completeOne_events (limit : ℚ) (s : BulkPrefetchState) (i : Nat)
    (h : s.inFlightMb = s.active.sum) :
    ∀ ev ∈ (completeOne limit s i).2,
      ev.activeBefore.sum + ev.size ≤ limit ∨ ev.activeBefore = [] := by
  unfold completeOne
  cases hg : s.active.get? i with
  | none => intro ev hev; simp at hev
  | some x =>
    apply schedulePrefetch_events
    rw [h, list_sum_eraseIdx s.active i x hg]

theorem bulkRun_fold (limit : ℚ) :
    ∀ (comps : List Nat) (st : BulkPrefetchState) (evs : List StartEvent),
      st.inFlightMb = st.active.sum →
      (∀ ev ∈ evs, ev.activeBefore.sum + ev.size ≤ limit ∨ ev.activeBefore = []) →
      (comps.foldl
        (fun acc i =>
          let r := completeOne limit acc.1 i
          (r.1, acc.2 ++ r.2)) (st, evs)).1.inFlightMb
        = (comps.foldl
            (fun acc i =>
              let r := completeOne limit acc.1 i
              (r.1, acc.2 ++ r.2)) (st, evs)).1.active.sum ∧
      ∀ ev ∈ (comps.foldl
          (fun acc i =>
            let r := completeOne limit acc.1 i
            (r.1, acc.2 ++ r.2)) (st, evs)).2,
        ev.activeBefore.sum + ev.size ≤ limit ∨ ev.activeBefore = [] := by
  intro comps
  induction comps with
  | nil => intro st evs h he; exact ⟨h, he⟩
  | cons i is ih =>
    intro st evs h he
    show ((is.foldl _ ((completeOne limit st i).1,
        evs ++ (completeOne limit st i).2)).1.inFlightMb = _) ∧ _
    apply ih
    · exact completeOne_sum limit st i h
    · intro ev hev
      rcases List.mem_append.1 hev with hev | hev
      · exact he ev hev
      · exact completeOne_events limit st i h ev hev

/-- C9: throughout a bulk run — the initial schedulePrefetch over the
    snapshot list followed by any sequence of preparation completions —
    whenever a new preparation is started, either the estimated sizes of the
    preparations in flight before it plus its own size sum to at most
    PREFETCH_SIZE_LIMIT_MB, or it is the only preparation in flight; and
    with nothing in flight the scheduler always starts the next snapshot,
    however large its size. -/
theorem c9_prefetch_budget :
    (∀ (sizes : List ℚ) (completions : List Nat),
      ∀ ev ∈ (bulkRun PREFETCH_SIZE_LIMIT_MB sizes completions).2,
        ev.activeBefore.sum + ev.size ≤ PREFETCH_SIZE_LIMIT_MB ∨
          ev.activeBefore = []) ∧
    (∀ (s : ℚ) (rest : List ℚ) (inFlight : ℚ),
      (schedulePrefetch PREFETCH_SIZE_LIMIT_MB (s :: rest) [] inFlight).2 ≠ []) := by
  constructor
  · intro sizes completions ev hev
    unfold bulkRun at hev
    exact (bulkRun_fold PREFETCH_SIZE_LIMIT_MB completions
      (schedulePrefetch PREFETCH_SIZE_LIMIT_MB sizes [] 0).1
      (schedulePrefetch PREFETCH_SIZE_LIMIT_MB sizes [] 0).2
      (schedulePrefetch_sum PREFETCH_SIZE_LIMIT_MB sizes [] 0 (by simp))
      (schedulePrefetch_events PREFETCH_SIZE_LIMIT_MB sizes [] 0 (by simp))).2
      ev hev
  · intro s rest inFlight
    unfold schedulePrefetch
    rw [if_pos (Or.inr rfl)]
    simp

/-- Witness for c9_prefetch_budget: sizes 30, 10, 12 MB — the 30 MB
    snapshot starts alone over budget, and after it completes the 12 MB
    preparation starts with 10 MB already in flight, within the budget
    (10 + 12 ≤ 25); a lone 30 MB snapshot is always scheduled. -/
theorem c9_prefetch_budget_witness :
    (([10] : List ℚ).sum + 12 ≤ PREFETCH_SIZE_LIMIT_MB ∨ ([10] : List ℚ) = []) ∧
    (schedulePrefetch PREFETCH_SIZE_LIMIT_MB [30] [] 0).2 ≠ [] :=
  ⟨c9_prefetch_budget.1 [30, 10, 12] [0] ⟨12, 10, [10]⟩
      (by norm_num [bulkRun, completeOne, schedulePrefetch, PREFETCH_SIZE_LIMIT_MB]),
   c9_prefetch_budget.2 30 [] 0⟩

end ChatSnap
